import Mathlib

/-!
# The at-rule token boundary scanner and dispatcher of `gtk/gtkcssrule.c`

A shallow embedding of `GtkCssTokenSourceAt` (the bounded token source that
ends at an at-rule's terminator) and of `gtk_css_rule_new_from_at_rule`,
followed by the properties proved about them.

Token sources are values of a state type together with a record of the two
virtual functions the scanner uses (`peek_token`, `consume_token`); the C
code's in-place updates become explicit state passing.
-/

namespace GtkCssRule

/-! ## Tokens -/

/-- Modelled from the spec: the enum `GtkCssTokenType` is declared in the
tokenizer's header, which is not part of this file.  The spec's data model
lists the tags at-keyword, function, open/close parenthesis, open/close
bracket, open/close brace, semicolon, end-of-input and "other"; `OTHER n`
stands for every remaining tag (identifiers, whitespace, strings, ...). -/
inductive GtkCssTokenType where
  | EOF
  | AT_KEYWORD
  | FUNCTION
  | OPEN_PARENS
  | CLOSE_PARENS
  | OPEN_SQUARE
  | CLOSE_SQUARE
  | OPEN_CURLY
  | CLOSE_CURLY
  | SEMICOLON
  | OTHER (tag : Nat)
  deriving DecidableEq

/-- Modelled from the spec: the struct `GtkCssToken` is declared in the
tokenizer's header.  A token is a tag plus a payload; the only payload this
file reads is `token->string.string` of an at-keyword. -/
structure GtkCssToken where
  type : GtkCssTokenType
  string : List Char
  deriving DecidableEq

/-- The `static GtkCssToken eof_token = { GTK_CSS_TOKEN_EOF }` of
`gtk_css_token_source_at_peek_token`. -/
def eof_token : GtkCssToken := { type := GtkCssTokenType.EOF, string := [] }

/-- Modelled from the spec: `gtk_css_token_is (token, type)` is defined with the
tokenizer, not in this file; it tests whether the token carries that tag. -/
def gtk_css_token_is (token : GtkCssToken) (type : GtkCssTokenType) : Bool :=
  decide (token.type = type)

/-! ## Token sources -/

/-- Modelled from the spec: the struct `GtkCssTokenSourceClass` is declared in
the token source header, not in this file ("a pull-based, peek/consume
abstraction").  Of the five entries the vtable `GTK_CSS_TOKEN_SOURCE_AT` fills
in, the two the scanner's state depends on are kept: `consume_token` and
`peek_token`, over a source state `σ` (`finalize`, `error` and `get_location`
only forward to the wrapped source). -/
structure GtkCssTokenSourceClass (σ : Type) where
  consume_token : σ → σ
  peek_token : σ → GtkCssToken

/-- Modelled from the spec: `gtk_css_token_source_peek_token (source)` is defined
with the token source interface; it is the virtual call of `peek_token`
("peek next without consuming"). -/
def gtk_css_token_source_peek_token {σ : Type} (cls : GtkCssTokenSourceClass σ)
    (source : σ) : GtkCssToken :=
  cls.peek_token source

/-- Modelled from the spec: `gtk_css_token_source_consume_token_as (source,
consumer)` is defined with the token source interface; it is the virtual call of
`consume_token` ("consume next token, reinterpreting its semantic role for
diagnostics": the consumer only labels the token). -/
def gtk_css_token_source_consume_token_as {σ : Type} (cls : GtkCssTokenSourceClass σ)
    (source : σ) : σ :=
  cls.consume_token source

/-- Modelled from the spec: the lexer-backed token source is an external
collaborator ("a pull-based, peek/consume abstraction over a stream of lexical
tokens").  It is a finite list of the tokens still to be read: peeking gives the
first one, or the end-of-input token when none is left, and consuming drops it. -/
def GTK_CSS_TOKEN_SOURCE_LIST : GtkCssTokenSourceClass (List GtkCssToken) where
  consume_token := fun l => l.tail
  peek_token := fun l => l.headD eof_token

/-- The struct `_GtkCssTokenSourceAt`: the wrapped source, the stack of expected
closing tags (`GSList *blocks`, head = top) and the `done` bit. -/
structure GtkCssTokenSourceAt (σ : Type) where
  source : σ
  blocks : List GtkCssTokenType
  done : Bool

/-- The call `g_slist_prepend (list, data)`. -/
def g_slist_prepend (list : List GtkCssTokenType) (data : GtkCssTokenType) :
    List GtkCssTokenType :=
  data :: list

/-- The call `g_slist_remove (list, data)`: removes the first node holding `data`. -/
def g_slist_remove (list : List GtkCssTokenType) (data : GtkCssTokenType) :
    List GtkCssTokenType :=
  list.erase data

/-- The state update of the `switch (token->type)` in
`gtk_css_token_source_at_consume_token`, before the consume is forwarded. -/
def gtk_css_token_source_at_track {σ : Type} (self : GtkCssTokenSourceAt σ)
    (type : GtkCssTokenType) : GtkCssTokenSourceAt σ :=
  match type with
  | GtkCssTokenType.FUNCTION | GtkCssTokenType.OPEN_PARENS =>
      { self with blocks := g_slist_prepend self.blocks GtkCssTokenType.CLOSE_PARENS }
  | GtkCssTokenType.OPEN_SQUARE =>
      { self with blocks := g_slist_prepend self.blocks GtkCssTokenType.CLOSE_SQUARE }
  | GtkCssTokenType.OPEN_CURLY =>
      { self with blocks := g_slist_prepend self.blocks GtkCssTokenType.CLOSE_CURLY }
  | GtkCssTokenType.CLOSE_PARENS | GtkCssTokenType.CLOSE_SQUARE
  | GtkCssTokenType.CLOSE_CURLY =>
      match self.blocks with
      | [] => self
      | data :: _ =>
          if data = type then
            let blocks := g_slist_remove self.blocks data
            if type = GtkCssTokenType.CLOSE_CURLY ∧ blocks = [] then
              { self with blocks := blocks, done := true }
            else
              { self with blocks := blocks }
          else self
  | GtkCssTokenType.SEMICOLON =>
      if self.blocks = [] then { self with done := true } else self
  | _ => self

/-- The function `gtk_css_token_source_at_consume_token`: nothing happens once
`done` is set; otherwise the type of the wrapped source's next token updates the
stack and the latch, and the consume is forwarded to the wrapped source. -/
def gtk_css_token_source_at_consume_token {σ : Type} (cls : GtkCssTokenSourceClass σ)
    (self : GtkCssTokenSourceAt σ) : GtkCssTokenSourceAt σ :=
  if self.done then self
  else
    let token := gtk_css_token_source_peek_token cls self.source
    let self1 := gtk_css_token_source_at_track self token.type
    { self1 with source := gtk_css_token_source_consume_token_as cls self1.source }

/-- The function `gtk_css_token_source_at_peek_token`: the end-of-input sentinel
once `done` is set, otherwise the wrapped source's next token. -/
def gtk_css_token_source_at_peek_token {σ : Type} (cls : GtkCssTokenSourceClass σ)
    (self : GtkCssTokenSourceAt σ) : GtkCssToken :=
  if self.done then eof_token
  else gtk_css_token_source_peek_token cls self.source

/-- The vtable `GTK_CSS_TOKEN_SOURCE_AT`: a bounded source is itself a token
source, over whatever class the wrapped source has. -/
def GTK_CSS_TOKEN_SOURCE_AT {σ : Type} (cls : GtkCssTokenSourceClass σ) :
    GtkCssTokenSourceClass (GtkCssTokenSourceAt σ) where
  consume_token := gtk_css_token_source_at_consume_token cls
  peek_token := gtk_css_token_source_at_peek_token cls

/-- The constructor `gtk_css_token_source_new_at`: the allocation is zeroed, so
the stack is `NULL` (empty) and `done` is clear; only `source` is assigned. -/
def gtk_css_token_source_new_at {σ : Type} (source : σ) : GtkCssTokenSourceAt σ :=
  { source := source, blocks := [], done := false }

/-- Consuming `n` tokens in a row from a bounded source. -/
def gtk_css_token_source_at_consume_tokens {σ : Type} (cls : GtkCssTokenSourceClass σ) :
    Nat → GtkCssTokenSourceAt σ → GtkCssTokenSourceAt σ
  | 0, self => self
  | n + 1, self =>
      gtk_css_token_source_at_consume_tokens cls n
        (gtk_css_token_source_at_consume_token cls self)

/-- The two operations a client can apply to a token source. -/
inductive GtkCssTokenSourceOp where
  | peek
  | consume
  deriving DecidableEq

/-- Running a sequence of client operations on a bounded source: the final
state and the tokens the peeks returned, in order. -/
def gtk_css_token_source_at_run {σ : Type} (cls : GtkCssTokenSourceClass σ) :
    List GtkCssTokenSourceOp → GtkCssTokenSourceAt σ →
      GtkCssTokenSourceAt σ × List GtkCssToken
  | [], self => (self, [])
  | GtkCssTokenSourceOp.peek :: ops, self =>
      let r := gtk_css_token_source_at_run cls ops self
      (r.1, gtk_css_token_source_at_peek_token cls self :: r.2)
  | GtkCssTokenSourceOp.consume :: ops, self =>
      gtk_css_token_source_at_run cls ops (gtk_css_token_source_at_consume_token cls self)

/-! ## Helpers of the token source interface -/

/-- Modelled from the spec: `gtk_css_token_source_get_token` is defined with
the token source interface, not in this file.  The dispatcher "peek[s] the next
token from the bounded source": the fetch returns the source's next token and
leaves it unconsumed (the caller reads its text afterwards and hands the same
source to the sub-parser). -/
def gtk_css_token_source_get_token {σ : Type} (cls : GtkCssTokenSourceClass σ)
    (source : σ) : GtkCssToken :=
  gtk_css_token_source_peek_token cls source

/-- Modelled from the spec: `gtk_css_token_source_consume_all` is defined with
the token source interface, not in this file.  Draining "always consumes to
end-of-input" of the source: consume while the fetched token is not
end-of-input.  The loop is bounded by `fuel`; `none` means the fuel ran out. -/
def gtk_css_token_source_consume_all {σ : Type} (cls : GtkCssTokenSourceClass σ) :
    Nat → σ → Option σ
  | 0, _ => none
  | fuel + 1, source =>
      if gtk_css_token_is (gtk_css_token_source_get_token cls source) GtkCssTokenType.EOF then
        some source
      else
        gtk_css_token_source_consume_all cls fuel
          (gtk_css_token_source_consume_token_as cls source)

/-- A client reading a token source to its end: peek, stop at end-of-input,
otherwise record the token and consume it.  Returns the tokens read and the
final source; `none` means the fuel ran out. -/
def gtk_css_token_source_read_all {σ : Type} (cls : GtkCssTokenSourceClass σ) :
    Nat → σ → Option (List GtkCssToken × σ)
  | 0, _ => none
  | fuel + 1, source =>
      let token := gtk_css_token_source_peek_token cls source
      if gtk_css_token_is token GtkCssTokenType.EOF then
        some ([], source)
      else
        (gtk_css_token_source_read_all cls fuel
            (gtk_css_token_source_consume_token_as cls source)).map
          (fun r => (token :: r.1, r.2))

/-- The glib function `g_ascii_tolower`: only the 26 ASCII capitals change. -/
def g_ascii_tolower (c : Char) : Char :=
  if 'A' ≤ c ∧ c ≤ 'Z' then Char.ofNat (c.toNat + 32) else c

/-- The glib function `g_ascii_strcasecmp`: compares the two strings after
ASCII lower-casing, returning the difference at the first mismatch (a string
that ends first compares as ending in the character 0). -/
def g_ascii_strcasecmp : List Char → List Char → Int
  | [], [] => 0
  | [], c2 :: _ => - ((g_ascii_tolower c2).toNat : Int)
  | c1 :: _, [] => ((g_ascii_tolower c1).toNat : Int)
  | c1 :: s1, c2 :: s2 =>
      if g_ascii_tolower c1 = g_ascii_tolower c2 then g_ascii_strcasecmp s1 s2
      else ((g_ascii_tolower c1).toNat : Int) - ((g_ascii_tolower c2).toNat : Int)

/-! ## The dispatcher -/

/-- The diagnostics `gtk_css_rule_new_from_at_rule` emits on the bounded source,
and those a sub-parser emits through it. -/
inductive GtkCssDiagnostic (ε : Type) where
  /-- The syntax error raised when the rule does not start with an at-keyword. -/
  | expected_at
  /-- The "Unknown rule @%s" report, with the keyword text. -/
  | unknown_rule (keyword : List Char)
  /-- The "Junk at end of @-rule" report. -/
  | junk_at_end
  /-- An error reported by a sub-parser. -/
  | reported (e : ε)
  deriving DecidableEq

/-- The three entries of the dispatch chain. -/
inductive GtkCssRuleKind where
  | import_rule
  | define_color_rule
  | keyframes_rule
  deriving DecidableEq

/-- What one run of a sub-parser did: how many times it consumed from the
bounded source, which errors it reported, and the rule it returned (or none). -/
structure GtkCssSubParse (ρ ε : Type) where
  consumed : Nat
  errors : List ε
  rule : Option ρ

/-- Modelled from the spec: the sub-parsers `gtk_css_import_rule_new_parse`,
`gtk_css_define_color_rule_new_parse` and `gtk_css_keyframes_rule_new_parse` are
external collaborators with the interface
"parse(bounded_source, parent_rule, parent_stylesheet) -> RuleRecord?".  Each is
an arbitrary function of its three arguments. -/
structure GtkCssRuleParsers (σ ρ S ε : Type) where
  gtk_css_import_rule_new_parse :
    GtkCssTokenSourceAt σ → Option ρ → S → GtkCssSubParse ρ ε
  gtk_css_define_color_rule_new_parse :
    GtkCssTokenSourceAt σ → Option ρ → S → GtkCssSubParse ρ ε
  gtk_css_keyframes_rule_new_parse :
    GtkCssTokenSourceAt σ → Option ρ → S → GtkCssSubParse ρ ε

/-- The record of one sub-parser invocation: which one, its three arguments, and
what it did. -/
structure GtkCssRuleCall (σ ρ S ε : Type) where
  kind : GtkCssRuleKind
  at_source : GtkCssTokenSourceAt σ
  parent_rule : Option ρ
  parent_style_sheet : S
  result : GtkCssSubParse ρ ε

/-- The observable outcome of `gtk_css_rule_new_from_at_rule`: the returned rule
(or `NULL`), the bounded source as it is when released (its `source` field is the
caller's source, advanced), the diagnostics in order, and the sub-parser calls. -/
structure GtkCssAtRuleResult (σ ρ S ε : Type) where
  rule : Option ρ
  at_source : GtkCssTokenSourceAt σ
  errors : List (GtkCssDiagnostic ε)
  calls : List (GtkCssRuleCall σ ρ S ε)

/-- Running one sub-parser on the bounded source: the call is recorded, its
consumes are applied to the bounded source, its errors are forwarded. -/
def gtk_css_rule_parse_with {σ ρ S ε : Type} (cls : GtkCssTokenSourceClass σ)
    (kind : GtkCssRuleKind)
    (parse : GtkCssTokenSourceAt σ → Option ρ → S → GtkCssSubParse ρ ε)
    (at_source : GtkCssTokenSourceAt σ) (parent_rule : Option ρ) (parent_style_sheet : S) :
    GtkCssAtRuleResult σ ρ S ε :=
  let result := parse at_source parent_rule parent_style_sheet
  { rule := result.rule
    at_source := gtk_css_token_source_at_consume_tokens cls result.consumed at_source
    errors := result.errors.map GtkCssDiagnostic.reported
    calls := [{ kind := kind, at_source := at_source, parent_rule := parent_rule,
                parent_style_sheet := parent_style_sheet, result := result }] }

/-- Lines 273-290 of `gtk_css_rule_new_from_at_rule`: the keyword chain.  The
result is the state before the final leftover check. -/
def gtk_css_rule_dispatch {σ ρ S ε : Type} (cls : GtkCssTokenSourceClass σ)
    (parsers : GtkCssRuleParsers σ ρ S ε) (fuel : Nat) (token : GtkCssToken)
    (at_source : GtkCssTokenSourceAt σ) (parent_rule : Option ρ) (parent_style_sheet : S) :
    Option (GtkCssAtRuleResult σ ρ S ε) :=
  if g_ascii_strcasecmp token.string ['i', 'm', 'p', 'o', 'r', 't'] = 0 then
    some (gtk_css_rule_parse_with cls GtkCssRuleKind.import_rule
      parsers.gtk_css_import_rule_new_parse at_source parent_rule parent_style_sheet)
  else if g_ascii_strcasecmp token.string
      ['d', 'e', 'f', 'i', 'n', 'e', '-', 'c', 'o', 'l', 'o', 'r'] = 0 then
    some (gtk_css_rule_parse_with cls GtkCssRuleKind.define_color_rule
      parsers.gtk_css_define_color_rule_new_parse at_source parent_rule parent_style_sheet)
  else if g_ascii_strcasecmp token.string
      ['k', 'e', 'y', 'f', 'r', 'a', 'm', 'e', 's'] = 0 then
    some (gtk_css_rule_parse_with cls GtkCssRuleKind.keyframes_rule
      parsers.gtk_css_keyframes_rule_new_parse at_source parent_rule parent_style_sheet)
  else
    (gtk_css_token_source_consume_all (GTK_CSS_TOKEN_SOURCE_AT cls) fuel at_source).map
      (fun drained =>
        { rule := none, at_source := drained,
          errors := [GtkCssDiagnostic.unknown_rule token.string], calls := [] })

/-- Lines 292-302 of `gtk_css_rule_new_from_at_rule`: the leftover check.  A
returned rule followed by anything but end-of-input is reported, the bounded
source is drained and the rule is dropped. -/
def gtk_css_rule_check_end {σ ρ S ε : Type} (cls : GtkCssTokenSourceClass σ)
    (fuel : Nat) (r : GtkCssAtRuleResult σ ρ S ε) : Option (GtkCssAtRuleResult σ ρ S ε) :=
  let token := gtk_css_token_source_get_token (GTK_CSS_TOKEN_SOURCE_AT cls) r.at_source
  if r.rule.isSome ∧ gtk_css_token_is token GtkCssTokenType.EOF = false then
    (gtk_css_token_source_consume_all (GTK_CSS_TOKEN_SOURCE_AT cls) fuel r.at_source).map
      (fun drained =>
        { r with rule := none, at_source := drained,
                 errors := r.errors ++ [GtkCssDiagnostic.junk_at_end] })
  else
    some r

/-- The function `gtk_css_rule_new_from_at_rule`.  The drain loops run on
`fuel`; `none` means the fuel ran out. -/
def gtk_css_rule_new_from_at_rule {σ ρ S ε : Type} (cls : GtkCssTokenSourceClass σ)
    (parsers : GtkCssRuleParsers σ ρ S ε) (fuel : Nat) (source : σ)
    (parent_rule : Option ρ) (parent_style_sheet : S) :
    Option (GtkCssAtRuleResult σ ρ S ε) :=
  let at_source := gtk_css_token_source_new_at source
  let token := gtk_css_token_source_get_token (GTK_CSS_TOKEN_SOURCE_AT cls) at_source
  if token.type ≠ GtkCssTokenType.AT_KEYWORD then
    (gtk_css_token_source_consume_all (GTK_CSS_TOKEN_SOURCE_AT cls) fuel at_source).map
      (fun drained =>
        { rule := none, at_source := drained,
          errors := [GtkCssDiagnostic.expected_at], calls := [] })
  else
    (gtk_css_rule_dispatch cls parsers fuel token at_source parent_rule parent_style_sheet).bind
      (gtk_css_rule_check_end cls fuel)

/-! ## Sample tokens -/

/-- A token with the given tag and no payload. -/
def tok (type : GtkCssTokenType) : GtkCssToken := { type := type, string := [] }

/-- An identifier-like token (tag "other") with text. -/
def ident (s : List Char) : GtkCssToken := { type := GtkCssTokenType.OTHER 0, string := s }

/-- An at-keyword token with its keyword text. -/
def at_keyword (s : List Char) : GtkCssToken :=
  { type := GtkCssTokenType.AT_KEYWORD, string := s }

/-- The state `done = true`, empty stack, over the tokens `; y`. -/
def sample_done : GtkCssTokenSourceAt (List GtkCssToken) :=
  { source := [tok GtkCssTokenType.SEMICOLON, ident ['y']], blocks := [], done := true }

/-- A bounded source inside `url(`, about to read `) ; y`. -/
def sample_in_parens : GtkCssTokenSourceAt (List GtkCssToken) :=
  { source := [tok GtkCssTokenType.CLOSE_PARENS, tok GtkCssTokenType.SEMICOLON, ident ['y']],
    blocks := [GtkCssTokenType.CLOSE_PARENS], done := false }

/-- A bounded source at top level, about to read `; y`. -/
def sample_at_semicolon : GtkCssTokenSourceAt (List GtkCssToken) :=
  { source := [tok GtkCssTokenType.SEMICOLON, ident ['y']], blocks := [], done := false }

/-- A bounded source inside `[`, about to read a stray `) ; y`. -/
def sample_mismatch : GtkCssTokenSourceAt (List GtkCssToken) :=
  { source := [tok GtkCssTokenType.CLOSE_PARENS, tok GtkCssTokenType.SEMICOLON, ident ['y']],
    blocks := [GtkCssTokenType.CLOSE_SQUARE], done := false }

/-- A bounded source inside `{`, about to read `url( x`. -/
def sample_at_function : GtkCssTokenSourceAt (List GtkCssToken) :=
  { source := [tok GtkCssTokenType.FUNCTION, ident ['x']],
    blocks := [GtkCssTokenType.CLOSE_CURLY], done := false }

/-- The state of a freshly constructed bounded source over the token list `l`
after `k` consumes. -/
def at_state_after (l : List GtkCssToken) (k : Nat) : GtkCssTokenSourceAt (List GtkCssToken) :=
  gtk_css_token_source_at_consume_tokens GTK_CSS_TOKEN_SOURCE_LIST k
    (gtk_css_token_source_new_at l)

/-- The tokens of ` url(x); y`: function, identifier, `)`, `;`, identifier. -/
def sample_import_tokens : List GtkCssToken :=
  [tok GtkCssTokenType.FUNCTION, ident ['x'], tok GtkCssTokenType.CLOSE_PARENS,
    tok GtkCssTokenType.SEMICOLON, ident ['y']]

/-- The tokens of `a ( b [ c ] ) d`: nothing at top level but identifiers. -/
def sample_no_terminator : List GtkCssToken :=
  [ident ['a'], tok GtkCssTokenType.OPEN_PARENS, ident ['b'], tok GtkCssTokenType.OPEN_SQUARE,
    ident ['c'], tok GtkCssTokenType.CLOSE_SQUARE, tok GtkCssTokenType.CLOSE_PARENS, ident ['d']]

/-- Sample sub-parsers over token lists, with rules numbered by `Nat`: the parser
for `@import` reports an error, consumes only the keyword and returns no rule;
the define-color parser consumes three tokens and returns rule 7; the keyframes
parser consumes everything it can and returns rule 9. -/
def sample_parsers : GtkCssRuleParsers (List GtkCssToken) Nat Unit Unit where
  gtk_css_import_rule_new_parse := fun _ _ _ =>
    { consumed := 1, errors := [()], rule := none }
  gtk_css_define_color_rule_new_parse := fun _ _ _ =>
    { consumed := 3, errors := [], rule := some 7 }
  gtk_css_keyframes_rule_new_parse := fun self _ _ =>
    { consumed := self.source.length, errors := [], rule := some 9 }

/-- The tokens of `@import foo ; bar`. -/
def sample_import_rule : List GtkCssToken :=
  [at_keyword ['i', 'm', 'p', 'o', 'r', 't'], ident ['f', 'o', 'o'],
    tok GtkCssTokenType.SEMICOLON, ident ['b', 'a', 'r']]

/-- The tokens of `@define-color a b ; bar`. -/
def sample_define_color_rule : List GtkCssToken :=
  [at_keyword ['d', 'e', 'f', 'i', 'n', 'e', '-', 'c', 'o', 'l', 'o', 'r'], ident ['a'],
    ident ['b'], tok GtkCssTokenType.SEMICOLON, ident ['b', 'a', 'r']]

/-! ## The spec's vocabulary -/

/-- Following the spec's words, "keyword matching is case-insensitive ASCII
comparison": two texts match when they are equal once the basic latin capitals
are lowered. -/
def ascii_case_insensitive_eq (a b : List Char) : Bool :=
  decide (a.map Char.toLower = b.map Char.toLower)

/-- Following the spec's words, "the fixed dispatch table: import, define-color,
keyframes": the rule kind a keyword text selects, if any. -/
def dispatch_table (keyword : List Char) : Option GtkCssRuleKind :=
  if ascii_case_insensitive_eq keyword ['i', 'm', 'p', 'o', 'r', 't'] then
    some GtkCssRuleKind.import_rule
  else if ascii_case_insensitive_eq keyword
      ['d', 'e', 'f', 'i', 'n', 'e', '-', 'c', 'o', 'l', 'o', 'r'] then
    some GtkCssRuleKind.define_color_rule
  else if ascii_case_insensitive_eq keyword ['k', 'e', 'y', 'f', 'r', 'a', 'm', 'e', 's'] then
    some GtkCssRuleKind.keyframes_rule
  else none

/-- The sub-parser registered for a rule kind. -/
def GtkCssRuleParsers.of_kind {σ ρ S ε : Type} (parsers : GtkCssRuleParsers σ ρ S ε) :
    GtkCssRuleKind → GtkCssTokenSourceAt σ → Option ρ → S → GtkCssSubParse ρ ε
  | GtkCssRuleKind.import_rule => parsers.gtk_css_import_rule_new_parse
  | GtkCssRuleKind.define_color_rule => parsers.gtk_css_define_color_rule_new_parse
  | GtkCssRuleKind.keyframes_rule => parsers.gtk_css_keyframes_rule_new_parse

/-- Following the spec's words: the closing tag an opening token (function,
open parenthesis, open bracket, open brace) expects; `none` for any other tag. -/
def closer_of : GtkCssTokenType → Option GtkCssTokenType
  | GtkCssTokenType.FUNCTION => some GtkCssTokenType.CLOSE_PARENS
  | GtkCssTokenType.OPEN_PARENS => some GtkCssTokenType.CLOSE_PARENS
  | GtkCssTokenType.OPEN_SQUARE => some GtkCssTokenType.CLOSE_SQUARE
  | GtkCssTokenType.OPEN_CURLY => some GtkCssTokenType.CLOSE_CURLY
  | _ => none

/-- Following the spec's words: the closing tokens are close-parenthesis,
close-bracket and close-brace. -/
def is_closer : GtkCssTokenType → Bool
  | GtkCssTokenType.CLOSE_PARENS => true
  | GtkCssTokenType.CLOSE_SQUARE => true
  | GtkCssTokenType.CLOSE_CURLY => true
  | _ => false

/-- One token of the strict nesting discipline: an opener is remembered by its
closing tag, a closer must be the tag of the most recent unclosed opener (else
the list is not well nested: `none`), any other token is neutral. -/
def nesting_step (opened : Option (List GtkCssTokenType)) (t : GtkCssToken) :
    Option (List GtkCssTokenType) :=
  match opened with
  | none => none
  | some stack =>
      match closer_of t.type with
      | some c => some (c :: stack)
      | none =>
          if is_closer t.type then
            match stack with
            | [] => none
            | top :: below => if top = t.type then some below else none
          else some stack

/-- The closing tags of the openers still unclosed after the tokens `l`, most
recent first; `none` when some closer of `l` does not match the most recent
unclosed opener. -/
def open_brackets (l : List GtkCssToken) : Option (List GtkCssTokenType) :=
  l.foldl nesting_step (some [])

/-- The number of opening tokens in `l`. -/
def count_openers (l : List GtkCssToken) : Nat :=
  (l.filter (fun t => (closer_of t.type).isSome)).length

/-- The number of closing tokens in `l`. -/
def count_closers (l : List GtkCssToken) : Nat :=
  (l.filter (fun t => is_closer t.type)).length

/-- Following the spec's words on the bracket stack: an opening token pushes its
matching closing tag; a closing token that equals the top of a non-empty stack
pops it; any other token, a closer that does not match included, leaves the
stack as it is. -/
def spec_stack_step (stack : List GtkCssTokenType) (type : GtkCssTokenType) :
    List GtkCssTokenType :=
  match closer_of type with
  | some c => c :: stack
  | none =>
      match stack with
      | [] => []
      | top :: below => if is_closer type = true ∧ top = type then below else top :: below

/-- Following the spec's words, the rule's natural terminator is "a top-level
semicolon, or the closing brace of a top-level block": a semicolon met while
nothing is open, or a close-brace met while the only thing open is one brace
block. -/
def is_terminator (stack : List GtkCssTokenType) (type : GtkCssTokenType) : Bool :=
  decide ((type = GtkCssTokenType.SEMICOLON ∧ stack = []) ∨
    (type = GtkCssTokenType.CLOSE_CURLY ∧ stack = [GtkCssTokenType.CLOSE_CURLY]))

/-- Following the spec's words: the tokens of `l` that follow the rule's
terminator, for a rule read with the brackets `stack` already open.  When the
list reports end-of-input first (it is empty, or its next token is the
end-of-input token) there is no terminator and what is left is returned. -/
def after_terminator : List GtkCssTokenType → List GtkCssToken → List GtkCssToken
  | _, [] => []
  | stack, t :: rest =>
      if t.type = GtkCssTokenType.EOF then t :: rest
      else if is_terminator stack t.type = true then rest
      else after_terminator (spec_stack_step stack t.type) rest

/-- The tokens of `@frob { } x`. -/
def sample_unknown_block : List GtkCssToken :=
  [at_keyword ['f', 'r', 'o', 'b'], tok GtkCssTokenType.OPEN_CURLY,
    tok GtkCssTokenType.CLOSE_CURLY, ident ['x']]

/-- The tokens of `{ a ; b } c`. -/
def sample_block_start : List GtkCssToken :=
  [tok GtkCssTokenType.OPEN_CURLY, ident ['a'], tok GtkCssTokenType.SEMICOLON, ident ['b'],
    tok GtkCssTokenType.CLOSE_CURLY, ident ['c']]

/-- The single token `(`: well nested (no closer mismatches), but left open. -/
def sample_unclosed : List GtkCssToken := [tok GtkCssTokenType.OPEN_PARENS]

/-- Sample sub-parsers for the trailing-junk case: the parser for `@import`
consumes the keyword and `url(x)` (four tokens) and returns rule 1. -/
def sample_parsers_junk : GtkCssRuleParsers (List GtkCssToken) Nat Unit Unit where
  gtk_css_import_rule_new_parse := fun _ _ _ =>
    { consumed := 4, errors := [], rule := some 1 }
  gtk_css_define_color_rule_new_parse := fun _ _ _ =>
    { consumed := 0, errors := [], rule := none }
  gtk_css_keyframes_rule_new_parse := fun _ _ _ =>
    { consumed := 0, errors := [], rule := none }

/-- The tokens of `@import url(x) extra-garbage ; next`. -/
def sample_junk_rule : List GtkCssToken :=
  [at_keyword ['i', 'm', 'p', 'o', 'r', 't'], tok GtkCssTokenType.FUNCTION, ident ['x'],
    tok GtkCssTokenType.CLOSE_PARENS, ident ['e', 'x', 't', 'r', 'a'],
    tok GtkCssTokenType.SEMICOLON, ident ['n', 'e', 'x', 't']]

/-- The tokens of `@frobnicate foo ; bar baz`. -/
def sample_unknown_rule : List GtkCssToken :=
  [at_keyword ['f', 'r', 'o', 'b', 'n', 'i', 'c', 'a', 't', 'e'], ident ['f', 'o', 'o'],
    tok GtkCssTokenType.SEMICOLON, ident ['b', 'a', 'r'], ident ['b', 'a', 'z']]

/-- The tokens of `@IMPORT x ;`. -/
def sample_upper_rule : List GtkCssToken :=
  [at_keyword ['I', 'M', 'P', 'O', 'R', 'T'], ident ['x'], tok GtkCssTokenType.SEMICOLON]

/-- The tokens of `name { 0% { } 100% { } }`. -/
def sample_keyframes_body : List GtkCssToken :=
  [ident ['n', 'a', 'm', 'e'], tok GtkCssTokenType.OPEN_CURLY, ident ['0', '%'],
    tok GtkCssTokenType.OPEN_CURLY, tok GtkCssTokenType.CLOSE_CURLY,
    ident ['1', '0', '0', '%'], tok GtkCssTokenType.OPEN_CURLY,
    tok GtkCssTokenType.CLOSE_CURLY, tok GtkCssTokenType.CLOSE_CURLY]

/-- An outer bounded source inside a `{` block, about to read `url( x ) ; } y`. -/
def sample_outer : GtkCssTokenSourceAt (List GtkCssToken) :=
  { source := [tok GtkCssTokenType.FUNCTION, ident ['x'], tok GtkCssTokenType.CLOSE_PARENS,
      tok GtkCssTokenType.SEMICOLON, tok GtkCssTokenType.CLOSE_CURLY, ident ['y']],
    blocks := [GtkCssTokenType.CLOSE_CURLY], done := false }

/-! ## One consume, one peek -/

section Step

variable {σ : Type} (cls : GtkCssTokenSourceClass σ)

theorem at_track_source (self : GtkCssTokenSourceAt σ) (type : GtkCssTokenType) :
    (gtk_css_token_source_at_track self type).source = self.source := by
  cases type <;> simp only [gtk_css_token_source_at_track] <;>
    (repeat' split) <;> rfl

theorem at_consume_token_of_done (self : GtkCssTokenSourceAt σ) (h : self.done = true) :
    gtk_css_token_source_at_consume_token cls self = self := by
  simp [gtk_css_token_source_at_consume_token, h]

theorem at_consume_token_of_not_done (self : GtkCssTokenSourceAt σ) (h : self.done = false) :
    gtk_css_token_source_at_consume_token cls self =
      { gtk_css_token_source_at_track self (cls.peek_token self.source).type with
        source := cls.consume_token self.source } := by
  simp [gtk_css_token_source_at_consume_token, h, gtk_css_token_source_peek_token,
    gtk_css_token_source_consume_token_as, at_track_source]

theorem at_consume_token_source (self : GtkCssTokenSourceAt σ) (h : self.done = false) :
    (gtk_css_token_source_at_consume_token cls self).source = cls.consume_token self.source := by
  rw [at_consume_token_of_not_done cls self h]

theorem at_consume_token_blocks (self : GtkCssTokenSourceAt σ) (h : self.done = false) :
    (gtk_css_token_source_at_consume_token cls self).blocks =
      (gtk_css_token_source_at_track self (cls.peek_token self.source).type).blocks := by
  rw [at_consume_token_of_not_done cls self h]

theorem at_consume_token_done (self : GtkCssTokenSourceAt σ) (h : self.done = false) :
    (gtk_css_token_source_at_consume_token cls self).done =
      (gtk_css_token_source_at_track self (cls.peek_token self.source).type).done := by
  rw [at_consume_token_of_not_done cls self h]

end Step

/-! ## The contract of peek and consume -/

section Contract

open GtkCssTokenType

variable {σ : Type} (cls : GtkCssTokenSourceClass σ)

/-- C2: once `done` is set, any sequence of peeks and consumes leaves the whole
state as it was (so `done` stays set, the bracket stack is unchanged and the
wrapped source is not advanced), and every peek in the sequence returned the
end-of-input sentinel, whatever the wrapped source holds. -/
theorem done_latch_is_one_way (self : GtkCssTokenSourceAt σ)
    (ops : List GtkCssTokenSourceOp) (h : self.done = true) :
    gtk_css_token_source_at_run cls ops self =
        (self, List.replicate (ops.count GtkCssTokenSourceOp.peek) eof_token) ∧
      (gtk_css_token_source_at_run cls ops self).1.done = true ∧
      (gtk_css_token_source_at_run cls ops self).1.blocks = self.blocks ∧
      (gtk_css_token_source_at_run cls ops self).1.source = self.source ∧
      (∀ t ∈ (gtk_css_token_source_at_run cls ops self).2, t = eof_token) ∧
      gtk_css_token_source_at_consume_token cls self = self := by
  have key : gtk_css_token_source_at_run cls ops self =
      (self, List.replicate (ops.count GtkCssTokenSourceOp.peek) eof_token) := by
    induction ops with
    | nil => rfl
    | cons op ops ih =>
      cases op with
      | peek =>
        simp [gtk_css_token_source_at_run, ih, gtk_css_token_source_at_peek_token, h,
          List.replicate_succ]
      | consume =>
        simp [gtk_css_token_source_at_run, at_consume_token_of_done cls self h, ih]
  refine ⟨key, ?_, ?_, ?_, ?_, at_consume_token_of_done cls self h⟩
  · rw [key]; exact h
  · rw [key]
  · rw [key]
  · rw [key]; intro t ht; exact List.eq_of_mem_replicate ht

/-- The instance of C2 at a latched source still holding `; y`: peek, consume,
peek returns two sentinels and changes nothing. -/
theorem done_latch_is_one_way_witness :
    sample_done.done = true ∧
      gtk_css_token_source_at_run GTK_CSS_TOKEN_SOURCE_LIST
          [GtkCssTokenSourceOp.peek, GtkCssTokenSourceOp.consume, GtkCssTokenSourceOp.peek]
          sample_done = (sample_done, [eof_token, eof_token]) :=
  ⟨rfl, (done_latch_is_one_way GTK_CSS_TOKEN_SOURCE_LIST sample_done
    [GtkCssTokenSourceOp.peek, GtkCssTokenSourceOp.consume, GtkCssTokenSourceOp.peek] rfl).1⟩

/-- C3: peek returns the end-of-input sentinel when `done` is set and otherwise
exactly the wrapped source's next token; as a client operation it leaves the
state (stack, latch, wrapped source) untouched; a freshly constructed bounded
source has an empty stack and `done` clear, so its first peek is the wrapped
source's peek. -/
theorem at_peek_token_contract (self : GtkCssTokenSourceAt σ) (source : σ) :
    (self.done = true → gtk_css_token_source_at_peek_token cls self = eof_token) ∧
      (self.done = false →
        gtk_css_token_source_at_peek_token cls self = cls.peek_token self.source) ∧
      (gtk_css_token_source_at_run cls [GtkCssTokenSourceOp.peek] self).1 = self ∧
      (gtk_css_token_source_at_run cls [GtkCssTokenSourceOp.peek] self).2 =
        [gtk_css_token_source_at_peek_token cls self] ∧
      (gtk_css_token_source_new_at source).blocks = [] ∧
      (gtk_css_token_source_new_at source).done = false ∧
      (gtk_css_token_source_new_at source).source = source ∧
      gtk_css_token_source_at_peek_token cls (gtk_css_token_source_new_at source) =
        cls.peek_token source := by
  refine ⟨?_, ?_, rfl, rfl, rfl, rfl, rfl, rfl⟩
  · intro h; simp [gtk_css_token_source_at_peek_token, h]
  · intro h; simp [gtk_css_token_source_at_peek_token, h, gtk_css_token_source_peek_token]

/-- C4: a consume on a source that is not done advances the wrapped source by
exactly one consume, also when that consume sets `done`; over a token list
`t :: rest` the wrapped source is left at `rest`, so its next token is the one
that followed the consumed token (the terminator included). -/
theorem terminator_is_swallowed (self : GtkCssTokenSourceAt σ)
    (lself : GtkCssTokenSourceAt (List GtkCssToken)) (t : GtkCssToken)
    (rest : List GtkCssToken) (h : self.done = false) (hl : lself.done = false)
    (hs : lself.source = t :: rest) :
    (gtk_css_token_source_at_consume_token cls self).source = cls.consume_token self.source ∧
      (gtk_css_token_source_at_consume_token GTK_CSS_TOKEN_SOURCE_LIST lself).source = rest ∧
      GTK_CSS_TOKEN_SOURCE_LIST.peek_token
          (gtk_css_token_source_at_consume_token GTK_CSS_TOKEN_SOURCE_LIST lself).source =
        rest.headD eof_token := by
  have h2 : (gtk_css_token_source_at_consume_token GTK_CSS_TOKEN_SOURCE_LIST lself).source =
      rest := by
    rw [at_consume_token_source _ lself hl, hs]; rfl
  refine ⟨at_consume_token_source cls self h, h2, ?_⟩
  rw [h2]; rfl

/-- The instance of C4 at the latching consume of `;` before `y`: the source
becomes done and the wrapped list is left at `y`. -/
theorem terminator_is_swallowed_witness :
    sample_at_semicolon.done = false ∧
      (gtk_css_token_source_at_consume_token GTK_CSS_TOKEN_SOURCE_LIST
        sample_at_semicolon).done = true ∧
      (gtk_css_token_source_at_consume_token GTK_CSS_TOKEN_SOURCE_LIST
        sample_at_semicolon).source = [ident ['y']] :=
  ⟨rfl, by decide,
    (terminator_is_swallowed GTK_CSS_TOKEN_SOURCE_LIST sample_at_semicolon sample_at_semicolon
      (tok SEMICOLON) [ident ['y']] rfl rfl rfl).2.1⟩

/-- C5: when the source is not done, the stack is `b :: rest` and the token
consumed is a closing parenthesis, bracket or brace of type `b`, the consume
leaves the stack at `rest`, and `done` is set exactly when the token is a
close-brace and `rest` is empty. -/
theorem matching_closer_pops (self : GtkCssTokenSourceAt σ) (b : GtkCssTokenType)
    (rest : List GtkCssTokenType) (hd : self.done = false) (hb : self.blocks = b :: rest)
    (ht : (cls.peek_token self.source).type = b)
    (hc : b = CLOSE_PARENS ∨ b = CLOSE_SQUARE ∨ b = CLOSE_CURLY) :
    (gtk_css_token_source_at_consume_token cls self).blocks = rest ∧
      ((gtk_css_token_source_at_consume_token cls self).done = true ↔
        (b = CLOSE_CURLY ∧ rest = [])) := by
  rw [at_consume_token_blocks cls self hd, at_consume_token_done cls self hd, ht]
  rcases hc with rfl | rfl | rfl <;>
    simp only [gtk_css_token_source_at_track, hb, g_slist_remove, List.erase_cons_head] <;>
    by_cases hr : rest = [] <;> simp [hr, hd]

/-- The instance of C5 at `)` closing `url(`: the stack empties and the source
is still not done. -/
theorem matching_closer_pops_witness :
    (gtk_css_token_source_at_consume_token GTK_CSS_TOKEN_SOURCE_LIST sample_in_parens).blocks
        = [] ∧
      ((gtk_css_token_source_at_consume_token GTK_CSS_TOKEN_SOURCE_LIST sample_in_parens).done
          = true ↔ (CLOSE_PARENS = CLOSE_CURLY ∧ ([] : List GtkCssTokenType) = [])) :=
  matching_closer_pops GTK_CSS_TOKEN_SOURCE_LIST sample_in_parens CLOSE_PARENS [] rfl rfl rfl
    (Or.inl rfl)

/-- C6: when the source is not done, consuming a semicolon never changes the
stack and sets `done` exactly when the stack is empty; consuming a token that is
not a function, an opening or closing parenthesis, bracket or brace, or a
semicolon (an at-keyword and the end-of-input token included) leaves the stack
unchanged and `done` clear. -/
theorem semicolon_and_neutral_tokens (self : GtkCssTokenSourceAt σ) (hd : self.done = false) :
    ((cls.peek_token self.source).type = SEMICOLON →
        (gtk_css_token_source_at_consume_token cls self).blocks = self.blocks ∧
        ((gtk_css_token_source_at_consume_token cls self).done = true ↔ self.blocks = [])) ∧
      ((cls.peek_token self.source).type ∉
          [FUNCTION, OPEN_PARENS, OPEN_SQUARE, OPEN_CURLY, CLOSE_PARENS, CLOSE_SQUARE,
            CLOSE_CURLY, SEMICOLON] →
        (gtk_css_token_source_at_consume_token cls self).blocks = self.blocks ∧
        (gtk_css_token_source_at_consume_token cls self).done = self.done) ∧
      ((cls.peek_token self.source).type = AT_KEYWORD ∨
          (cls.peek_token self.source).type = EOF →
        (gtk_css_token_source_at_consume_token cls self).blocks = self.blocks ∧
        (gtk_css_token_source_at_consume_token cls self).done = self.done) := by
  rw [at_consume_token_blocks cls self hd, at_consume_token_done cls self hd]
  refine ⟨?_, ?_, ?_⟩
  · intro ht
    rw [ht]
    by_cases hb : self.blocks = [] <;> simp [gtk_css_token_source_at_track, hb, hd]
  · intro ht
    generalize (cls.peek_token self.source).type = ty at ht
    cases ty <;> simp at ht <;> simp [gtk_css_token_source_at_track]
  · intro ht
    rcases ht with ht | ht <;> rw [ht] <;> simp [gtk_css_token_source_at_track]

/-- The instance of C6 at a top-level `;`: the stack stays empty and `done` is
set. -/
theorem semicolon_and_neutral_tokens_witness :
    (gtk_css_token_source_at_consume_token GTK_CSS_TOKEN_SOURCE_LIST
        sample_at_semicolon).blocks = [] ∧
      (gtk_css_token_source_at_consume_token GTK_CSS_TOKEN_SOURCE_LIST
        sample_at_semicolon).done = true :=
  ⟨((semicolon_and_neutral_tokens GTK_CSS_TOKEN_SOURCE_LIST sample_at_semicolon rfl).1 rfl).1,
    ((semicolon_and_neutral_tokens GTK_CSS_TOKEN_SOURCE_LIST sample_at_semicolon rfl).1
      rfl).2.2 rfl⟩

/-- C7: when the source is not done, consuming a function token or an
open-parenthesis pushes close-parenthesis, an open-bracket pushes close-bracket
and an open-brace pushes close-brace on top of the stack; the entries below are
unchanged and `done` stays clear. -/
theorem openers_push_matching_closer (self : GtkCssTokenSourceAt σ) (hd : self.done = false) :
    ((cls.peek_token self.source).type = FUNCTION ∨
          (cls.peek_token self.source).type = OPEN_PARENS →
        (gtk_css_token_source_at_consume_token cls self).blocks =
          CLOSE_PARENS :: self.blocks) ∧
      ((cls.peek_token self.source).type = OPEN_SQUARE →
        (gtk_css_token_source_at_consume_token cls self).blocks =
          CLOSE_SQUARE :: self.blocks) ∧
      ((cls.peek_token self.source).type = OPEN_CURLY →
        (gtk_css_token_source_at_consume_token cls self).blocks =
          CLOSE_CURLY :: self.blocks) ∧
      ((cls.peek_token self.source).type ∈ [FUNCTION, OPEN_PARENS, OPEN_SQUARE, OPEN_CURLY] →
        (gtk_css_token_source_at_consume_token cls self).done = false) := by
  rw [at_consume_token_blocks cls self hd, at_consume_token_done cls self hd]
  refine ⟨?_, ?_, ?_, ?_⟩
  · intro ht
    rcases ht with ht | ht <;> rw [ht] <;>
      simp [gtk_css_token_source_at_track, g_slist_prepend]
  · intro ht; rw [ht]; simp [gtk_css_token_source_at_track, g_slist_prepend]
  · intro ht; rw [ht]; simp [gtk_css_token_source_at_track, g_slist_prepend]
  · intro ht
    generalize (cls.peek_token self.source).type = ty at ht
    cases ty <;> simp at ht <;> simp [gtk_css_token_source_at_track, hd]

/-- The instance of C7 at `url(` read inside a `{` block: close-parenthesis goes
on top of the close-brace and the source is not done. -/
theorem openers_push_matching_closer_witness :
    (gtk_css_token_source_at_consume_token GTK_CSS_TOKEN_SOURCE_LIST
        sample_at_function).blocks = [CLOSE_PARENS, CLOSE_CURLY] ∧
      (gtk_css_token_source_at_consume_token GTK_CSS_TOKEN_SOURCE_LIST
        sample_at_function).done = false :=
  ⟨(openers_push_matching_closer GTK_CSS_TOKEN_SOURCE_LIST sample_at_function rfl).1
      (Or.inl rfl),
    (openers_push_matching_closer GTK_CSS_TOKEN_SOURCE_LIST sample_at_function rfl).2.2.2
      (by decide)⟩

/-- C8: when the source is not done and the token consumed is a closing
parenthesis, bracket or brace whose type differs from the top of the stack, or
the stack is empty, the consume leaves the stack and `done` as they were and
still forwards the consume to the wrapped source.  (A consume returns only the
new state: it has no way to report an error.) -/
theorem mismatched_closer_is_ignored (self : GtkCssTokenSourceAt σ) (hd : self.done = false)
    (hc : (cls.peek_token self.source).type ∈ [CLOSE_PARENS, CLOSE_SQUARE, CLOSE_CURLY])
    (hm : self.blocks.head? ≠ some (cls.peek_token self.source).type) :
    (gtk_css_token_source_at_consume_token cls self).blocks = self.blocks ∧
      (gtk_css_token_source_at_consume_token cls self).done = self.done ∧
      (gtk_css_token_source_at_consume_token cls self).source =
        cls.consume_token self.source := by
  rw [at_consume_token_blocks cls self hd, at_consume_token_done cls self hd,
    at_consume_token_source cls self hd]
  generalize (cls.peek_token self.source).type = ty at hc hm
  refine ⟨?_, ?_, rfl⟩
  · cases hbl : self.blocks with
    | nil => cases ty <;> simp at hc <;> simp [gtk_css_token_source_at_track, hbl]
    | cons b rest =>
      rw [hbl] at hm
      simp at hm
      cases ty <;> simp at hc <;> simp [gtk_css_token_source_at_track, hbl, hm]
  · cases hbl : self.blocks with
    | nil => cases ty <;> simp at hc <;> simp [gtk_css_token_source_at_track, hbl]
    | cons b rest =>
      rw [hbl] at hm
      simp at hm
      cases ty <;> simp at hc <;> simp [gtk_css_token_source_at_track, hbl, hm]

/-- The instance of C8 at a stray `)` read inside `[`: the stack still holds the
close-bracket, the source is not done, and the wrapped list moved on to `; y`. -/
theorem mismatched_closer_is_ignored_witness :
    (gtk_css_token_source_at_consume_token GTK_CSS_TOKEN_SOURCE_LIST sample_mismatch).blocks
        = [CLOSE_SQUARE] ∧
      (gtk_css_token_source_at_consume_token GTK_CSS_TOKEN_SOURCE_LIST sample_mismatch).done
        = false ∧
      (gtk_css_token_source_at_consume_token GTK_CSS_TOKEN_SOURCE_LIST sample_mismatch).source
        = [tok SEMICOLON, ident ['y']] :=
  mismatched_closer_is_ignored GTK_CSS_TOKEN_SOURCE_LIST sample_mismatch rfl (by decide)
    (by decide)

end Contract

/-! ## Scanning a token list -/

section Scan

open GtkCssTokenType

theorem at_consume_tokens_succ {σ : Type} (cls : GtkCssTokenSourceClass σ) (n : Nat)
    (self : GtkCssTokenSourceAt σ) :
    gtk_css_token_source_at_consume_tokens cls (n + 1) self =
      gtk_css_token_source_at_consume_token cls
        (gtk_css_token_source_at_consume_tokens cls n self) := by
  induction n generalizing self with
  | zero => rfl
  | succ n ih =>
    rw [gtk_css_token_source_at_consume_tokens, ih]
    rfl

theorem at_consume_tokens_of_done {σ : Type} (cls : GtkCssTokenSourceClass σ) (n : Nat)
    (self : GtkCssTokenSourceAt σ) (h : self.done = true) :
    gtk_css_token_source_at_consume_tokens cls n self = self := by
  induction n with
  | zero => rfl
  | succ n ih =>
    rw [gtk_css_token_source_at_consume_tokens, at_consume_token_of_done cls self h, ih]

theorem at_state_after_succ (l : List GtkCssToken) (k : Nat) :
    at_state_after l (k + 1) =
      gtk_css_token_source_at_consume_token GTK_CSS_TOKEN_SOURCE_LIST (at_state_after l k) :=
  at_consume_tokens_succ _ k _

/-- Over a token list, a consume at the end of the list changes nothing. -/
theorem list_at_consume_nil (self : GtkCssTokenSourceAt (List GtkCssToken))
    (hs : self.source = []) :
    gtk_css_token_source_at_consume_token GTK_CSS_TOKEN_SOURCE_LIST self = self := by
  cases hd : self.done with
  | true => exact at_consume_token_of_done _ self hd
  | false =>
    rw [at_consume_token_of_not_done _ self hd, hs]
    cases self with
    | mk source blocks done =>
      simp only at hs
      subst hs
      simp [GTK_CSS_TOKEN_SOURCE_LIST, eof_token, gtk_css_token_source_at_track]

/-- Over a token list `t :: r`, a consume tracks `t` and moves on to `r`. -/
theorem list_at_consume_cons (self : GtkCssTokenSourceAt (List GtkCssToken))
    (t : GtkCssToken) (r : List GtkCssToken) (hd : self.done = false)
    (hs : self.source = t :: r) :
    gtk_css_token_source_at_consume_token GTK_CSS_TOKEN_SOURCE_LIST self =
      { gtk_css_token_source_at_track self t.type with source := r } := by
  rw [at_consume_token_of_not_done _ self hd, hs]
  rfl

/-- The latch is only ever set by a semicolon at empty stack or by a close-brace
on a stack holding just one close-brace. -/
theorem at_track_latch_cause {σ : Type} (self : GtkCssTokenSourceAt σ) (type : GtkCssTokenType)
    (hd : self.done = false) (h : (gtk_css_token_source_at_track self type).done = true) :
    (type = SEMICOLON ∧ self.blocks = []) ∨
      (type = CLOSE_CURLY ∧ self.blocks = [CLOSE_CURLY]) := by
  cases hb : self.blocks with
  | nil =>
    cases type <;> simp [gtk_css_token_source_at_track, hb, hd] at h ⊢
  | cons b rest =>
    cases type <;> simp [gtk_css_token_source_at_track, hb, hd, g_slist_remove] at h ⊢ <;>
      (repeat' split at h) <;> simp_all

/-- While the bottom of the stack is not a close-brace and no semicolon or brace
is read at empty stack, a tracked token neither sets the latch nor puts a
close-brace at the bottom. -/
theorem at_track_stays_open {σ : Type} (self : GtkCssTokenSourceAt σ) (type : GtkCssTokenType)
    (hd : self.done = false) (hl : self.blocks.getLast? ≠ some CLOSE_CURLY)
    (ht : self.blocks = [] → type ∉ [SEMICOLON, OPEN_CURLY, CLOSE_CURLY]) :
    (gtk_css_token_source_at_track self type).done = false ∧
      (gtk_css_token_source_at_track self type).blocks.getLast? ≠ some CLOSE_CURLY := by
  constructor
  · cases hdone : (gtk_css_token_source_at_track self type).done with
    | false => rfl
    | true =>
      exfalso
      rcases at_track_latch_cause self type hd hdone with ⟨h1, h2⟩ | ⟨_, h2⟩
      · have := ht h2
        simp [h1] at this
      · rw [h2] at hl
        simp at hl
  · cases hb : self.blocks with
    | nil =>
      have ht2 := ht hb
      cases type <;> simp at ht2 <;>
        simp [gtk_css_token_source_at_track, hb, g_slist_prepend]
    | cons b rest =>
      rw [hb] at hl
      cases type <;>
        simp only [gtk_css_token_source_at_track, hb, g_slist_prepend, g_slist_remove,
          List.getLast?_cons_cons] <;>
        (try exact hl) <;> (repeat' split) <;> (try simp only [hb]) <;> (try exact hl) <;>
        (cases rest <;> simp_all [List.getLast?_cons_cons])

/-- C9: when no semicolon, open-brace or close-brace is met while the bracket
stack is empty, a fresh bounded source over the list never sets `done`: after
any number of consumes `done` is clear, the wrapped list is at the matching
position, and the bounded source's peek is the wrapped list's peek (so the
bounded view ends only where the list itself ends). -/
theorem never_spuriously_early (l : List GtkCssToken)
    (h : ∀ (k : Nat) (hk : k < l.length), (at_state_after l k).blocks = [] →
      l[k].type ∉ [SEMICOLON, OPEN_CURLY, CLOSE_CURLY]) (k : Nat) :
    (at_state_after l k).done = false ∧
      (at_state_after l k).source = l.drop k ∧
      gtk_css_token_source_at_peek_token GTK_CSS_TOKEN_SOURCE_LIST (at_state_after l k) =
        GTK_CSS_TOKEN_SOURCE_LIST.peek_token (l.drop k) := by
  have key : (at_state_after l k).done = false ∧ (at_state_after l k).source = l.drop k ∧
      (at_state_after l k).blocks.getLast? ≠ some CLOSE_CURLY := by
    induction k with
    | zero => simp [at_state_after, gtk_css_token_source_at_consume_tokens,
        gtk_css_token_source_new_at]
    | succ k ih =>
      obtain ⟨hd, hs, hl⟩ := ih
      rw [at_state_after_succ]
      by_cases hk : k < l.length
      · rw [List.drop_eq_getElem_cons hk] at hs
        rw [list_at_consume_cons _ _ _ hd hs]
        have := at_track_stays_open (at_state_after l k) l[k].type hd hl (h k hk)
        exact ⟨this.1, rfl, this.2⟩
      · have hnil : l.drop k = [] := List.drop_eq_nil_of_le (Nat.le_of_not_lt hk)
        rw [hnil] at hs
        rw [list_at_consume_nil _ hs]
        refine ⟨hd, ?_, hl⟩
        rw [hs, List.drop_eq_nil_of_le (by omega)]
  refine ⟨key.1, key.2.1, ?_⟩
  simp [gtk_css_token_source_at_peek_token, key.1, key.2.1, gtk_css_token_source_peek_token]

/-- The instance of C9 at `a ( b [ c ] ) d`: after all eight consumes `done` is
clear and the list is exhausted. -/
theorem never_spuriously_early_witness :
    (at_state_after sample_no_terminator 8).done = false ∧
      (at_state_after sample_no_terminator 8).source = [] :=
  ⟨(never_spuriously_early sample_no_terminator (by decide) 8).1,
    (never_spuriously_early sample_no_terminator (by decide) 8).2.1⟩

/-- Reading a bounded source over a token list to its end, with enough fuel:
the read returns, the tokens read and the tokens left make up the list, the
final state is the one reached by that many consumes, and no state before it
was done. -/
theorem list_read_all_spec (l : List GtkCssToken) :
    ∀ (self : GtkCssTokenSourceAt (List GtkCssToken)) (fuel : Nat),
      self.source = l → l.length < fuel →
      ∃ ys st,
        gtk_css_token_source_read_all (GTK_CSS_TOKEN_SOURCE_AT GTK_CSS_TOKEN_SOURCE_LIST)
            fuel self = some (ys, st) ∧
          ys ++ st.source = l ∧
          (gtk_css_token_source_at_peek_token GTK_CSS_TOKEN_SOURCE_LIST st).type = EOF ∧
          st = gtk_css_token_source_at_consume_tokens GTK_CSS_TOKEN_SOURCE_LIST ys.length self ∧
          (∀ k, k < ys.length →
            (gtk_css_token_source_at_consume_tokens GTK_CSS_TOKEN_SOURCE_LIST k self).done
                = false ∧
              (gtk_css_token_source_at_consume_tokens GTK_CSS_TOKEN_SOURCE_LIST k self).source
                = l.drop k) := by
  induction l with
  | nil =>
    intro self fuel hs hf
    obtain ⟨f, rfl⟩ : ∃ f, fuel = f + 1 := ⟨fuel - 1, by omega⟩
    refine ⟨[], self, ?_, by simpa using hs, ?_, rfl, by simp⟩
    · simp [gtk_css_token_source_read_all, gtk_css_token_source_peek_token,
        GTK_CSS_TOKEN_SOURCE_AT, gtk_css_token_source_at_peek_token, hs,
        GTK_CSS_TOKEN_SOURCE_LIST, gtk_css_token_is, eof_token]
    · simp [gtk_css_token_source_at_peek_token, gtk_css_token_source_peek_token, hs,
        GTK_CSS_TOKEN_SOURCE_LIST, eof_token]
  | cons t r ih =>
    intro self fuel hs hf
    obtain ⟨f, rfl⟩ : ∃ f, fuel = f + 1 := ⟨fuel - 1, by omega⟩
    by_cases hstop :
        (gtk_css_token_source_at_peek_token GTK_CSS_TOKEN_SOURCE_LIST self).type = EOF
    · refine ⟨[], self, ?_, by simpa using hs, hstop, rfl, by simp⟩
      simp [gtk_css_token_source_read_all, gtk_css_token_source_peek_token,
        GTK_CSS_TOKEN_SOURCE_AT, gtk_css_token_is, hstop]
    · have hd : self.done = false := by
        cases hdone : self.done with
        | false => rfl
        | true =>
          exfalso; apply hstop
          simp [gtk_css_token_source_at_peek_token, hdone, eof_token]
      have hnext := list_at_consume_cons self t r hd hs
      have hsrc : (gtk_css_token_source_at_consume_token GTK_CSS_TOKEN_SOURCE_LIST
          self).source = r := by rw [hnext]
      have hpeek : gtk_css_token_source_at_peek_token GTK_CSS_TOKEN_SOURCE_LIST self = t := by
        simp [gtk_css_token_source_at_peek_token, hd, gtk_css_token_source_peek_token, hs,
          GTK_CSS_TOKEN_SOURCE_LIST]
      obtain ⟨ys, st, h1, h2, h3, h4, h5⟩ :=
        ih (gtk_css_token_source_at_consume_token GTK_CSS_TOKEN_SOURCE_LIST self) f hsrc
          (by simp at hf; omega)
      refine ⟨t :: ys, st, ?_, by simp [h2], h3, ?_, ?_⟩
      · have h1b : gtk_css_token_source_read_all
            (GTK_CSS_TOKEN_SOURCE_AT GTK_CSS_TOKEN_SOURCE_LIST) f
            ((GTK_CSS_TOKEN_SOURCE_AT GTK_CSS_TOKEN_SOURCE_LIST).consume_token self) =
            some (ys, st) := h1
        have hp2 : (GTK_CSS_TOKEN_SOURCE_AT GTK_CSS_TOKEN_SOURCE_LIST).peek_token self = t :=
          hpeek
        rw [hpeek] at hstop
        simp [gtk_css_token_source_read_all, gtk_css_token_source_peek_token,
          gtk_css_token_source_consume_token_as, gtk_css_token_is, hp2, hstop, h1b]
      · rw [h4]; rfl
      · intro k hk
        cases k with
        | zero => exact ⟨hd, by simpa using hs⟩
        | succ j =>
          have := h5 j (by simp at hk; omega)
          simpa [gtk_css_token_source_at_consume_tokens] using this

/-- Reading a bounded source over `p ++ t :: rest`, where no token of `p` is the
end-of-input token and `t` is the first token to set the latch: the read returns
exactly `p ++ [t]` and the wrapped list is left at `rest`. -/
theorem list_read_all_latch (p : List GtkCssToken) (t : GtkCssToken)
    (rest : List GtkCssToken) :
    ∀ (self : GtkCssTokenSourceAt (List GtkCssToken)) (fuel : Nat),
      self.source = p ++ t :: rest → (p ++ t :: rest).length < fuel →
      (∀ x ∈ p, x.type ≠ EOF) →
      (gtk_css_token_source_at_consume_tokens GTK_CSS_TOKEN_SOURCE_LIST p.length self).done
        = false →
      (gtk_css_token_source_at_consume_tokens GTK_CSS_TOKEN_SOURCE_LIST (p.length + 1)
        self).done = true →
      ∃ st,
        gtk_css_token_source_read_all (GTK_CSS_TOKEN_SOURCE_AT GTK_CSS_TOKEN_SOURCE_LIST)
            fuel self = some (p ++ [t], st) ∧ st.source = rest := by
  induction p with
  | nil =>
    intro self fuel hs hf _ hd hlatch
    simp only [gtk_css_token_source_at_consume_tokens, List.length_nil, Nat.zero_add] at hd hlatch
    simp only [List.nil_append] at hs hf
    obtain ⟨f, rfl⟩ : ∃ f, fuel = f + 2 := ⟨fuel - 2, by simp at hf; omega⟩
    have hnext := list_at_consume_cons self t rest hd hs
    have hcause := at_track_latch_cause self t.type hd (by rw [hnext] at hlatch; exact hlatch)
    have hne : t.type ≠ EOF := by
      rcases hcause with ⟨h, _⟩ | ⟨h, _⟩ <;> rw [h] <;> decide
    have hp2 : (GTK_CSS_TOKEN_SOURCE_AT GTK_CSS_TOKEN_SOURCE_LIST).peek_token self = t := by
      simp [GTK_CSS_TOKEN_SOURCE_AT, gtk_css_token_source_at_peek_token, hd,
        gtk_css_token_source_peek_token, hs, GTK_CSS_TOKEN_SOURCE_LIST]
    have hp3 : (GTK_CSS_TOKEN_SOURCE_AT GTK_CSS_TOKEN_SOURCE_LIST).peek_token
        ((GTK_CSS_TOKEN_SOURCE_AT GTK_CSS_TOKEN_SOURCE_LIST).consume_token self) =
        eof_token := by
      show gtk_css_token_source_at_peek_token _
        (gtk_css_token_source_at_consume_token _ self) = eof_token
      simp [gtk_css_token_source_at_peek_token, hlatch]
    refine ⟨gtk_css_token_source_at_consume_token GTK_CSS_TOKEN_SOURCE_LIST self, ?_, ?_⟩
    · simp [gtk_css_token_source_read_all, gtk_css_token_source_peek_token,
        gtk_css_token_source_consume_token_as, gtk_css_token_is, hp2, hne, hp3, eof_token]
      rfl
    · rw [hnext]
  | cons x p ih =>
    intro self fuel hs hf hp hd hlatch
    have hd0 : self.done = false := by
      cases hdone : self.done with
      | false => rfl
      | true =>
        rw [at_consume_tokens_of_done _ _ _ hdone] at hd
        rw [hd] at hdone
        exact absurd hdone (by decide)
    obtain ⟨f, rfl⟩ : ∃ f, fuel = f + 1 := ⟨fuel - 1, by omega⟩
    have hs2 : self.source = x :: (p ++ t :: rest) := by simpa using hs
    have hnext := list_at_consume_cons self x (p ++ t :: rest) hd0 hs2
    have hsrc : (gtk_css_token_source_at_consume_token GTK_CSS_TOKEN_SOURCE_LIST
        self).source = p ++ t :: rest := by rw [hnext]
    have hne : x.type ≠ EOF := hp x (by simp)
    have hp2 : (GTK_CSS_TOKEN_SOURCE_AT GTK_CSS_TOKEN_SOURCE_LIST).peek_token self = x := by
      simp [GTK_CSS_TOKEN_SOURCE_AT, gtk_css_token_source_at_peek_token, hd0,
        gtk_css_token_source_peek_token, hs2, GTK_CSS_TOKEN_SOURCE_LIST]
    obtain ⟨st, h1, h2⟩ :=
      ih (gtk_css_token_source_at_consume_token GTK_CSS_TOKEN_SOURCE_LIST self) f hsrc
        (by simp at hf ⊢; omega) (fun y hy => hp y (by simp [hy])) hd hlatch
    have h1b : gtk_css_token_source_read_all
        (GTK_CSS_TOKEN_SOURCE_AT GTK_CSS_TOKEN_SOURCE_LIST) f
        ((GTK_CSS_TOKEN_SOURCE_AT GTK_CSS_TOKEN_SOURCE_LIST).consume_token self) =
        some (p ++ [t], st) := h1
    refine ⟨st, ?_, h2⟩
    simp [gtk_css_token_source_read_all, gtk_css_token_source_peek_token,
      gtk_css_token_source_consume_token_as, gtk_css_token_is, hp2, hne, h1b]

/-- C1: a fresh bounded source over a token list, read until its peek reports
end-of-input (with enough fuel), yields tokens `ys` and ends in a state `st`
such that `ys` followed by the tokens left in the wrapped list is the original
list; `st` is the state after `ys.length` consumes and no earlier state was
done.  If the read ended by the latch, `ys` ends with the token that set it: a
semicolon consumed at empty stack or a close-brace popping the last entry.
Whenever the list is `p ++ t :: rest` with `t` the first token that sets the
latch (and `p` free of end-of-input tokens), the read yields exactly `p ++ [t]`
and leaves the wrapped list at `rest`. -/
theorem truncated_view (l : List GtkCssToken) (fuel : Nat) (hf : l.length < fuel) :
    ∃ ys st,
      gtk_css_token_source_read_all (GTK_CSS_TOKEN_SOURCE_AT GTK_CSS_TOKEN_SOURCE_LIST) fuel
          (gtk_css_token_source_new_at l) = some (ys, st) ∧
        ys ++ st.source = l ∧
        (gtk_css_token_source_at_peek_token GTK_CSS_TOKEN_SOURCE_LIST st).type = EOF ∧
        st = at_state_after l ys.length ∧
        (∀ k, k < ys.length → (at_state_after l k).done = false) ∧
        (st.done = true → ∃ p t, ys = p ++ [t] ∧
          ((t.type = SEMICOLON ∧ (at_state_after l p.length).blocks = []) ∨
            (t.type = CLOSE_CURLY ∧ (at_state_after l p.length).blocks = [CLOSE_CURLY]))) ∧
        (∀ p t rest, l = p ++ t :: rest → (∀ x ∈ p, x.type ≠ EOF) →
          (at_state_after l p.length).done = false →
          (at_state_after l (p.length + 1)).done = true →
          ys = p ++ [t] ∧ st.source = rest) := by
  obtain ⟨ys, st, h1, h2, h3, h4, h5⟩ :=
    list_read_all_spec l (gtk_css_token_source_new_at l) fuel rfl hf
  refine ⟨ys, st, h1, h2, h3, h4, fun k hk => (h5 k hk).1, ?_, ?_⟩
  · intro hdone
    rcases List.eq_nil_or_concat ys with hnil | ⟨p, t, hys⟩
    · subst hnil
      rw [h4] at hdone
      exact absurd hdone (by simp [gtk_css_token_source_at_consume_tokens,
        gtk_css_token_source_new_at])
    · rw [List.concat_eq_append] at hys
      subst hys
      refine ⟨p, t, rfl, ?_⟩
      have hd : (at_state_after l p.length).done = false := (h5 p.length (by simp)).1
      have hs : (at_state_after l p.length).source = l.drop p.length :=
        (h5 p.length (by simp)).2
      have hdrop : l.drop p.length = t :: st.source := by
        rw [← h2]; simp
      rw [hdrop] at hs
      have hst : st = gtk_css_token_source_at_consume_token GTK_CSS_TOKEN_SOURCE_LIST
          (at_state_after l p.length) := by
        rw [h4]
        simp only [List.length_append, List.length_singleton]
        exact at_consume_tokens_succ _ _ _
      rw [hst, list_at_consume_cons (at_state_after l p.length) t st.source hd hs] at hdone
      exact at_track_latch_cause _ t.type hd hdone
  · intro p t rest hl hp hd hlatch
    obtain ⟨st2, g1, g2⟩ :=
      list_read_all_latch p t rest (gtk_css_token_source_new_at l) fuel hl (hl ▸ hf) hp hd
        hlatch
    rw [h1] at g1
    simp only [Option.some.injEq, Prod.mk.injEq] at g1
    exact ⟨g1.1, g1.2 ▸ g2⟩

/-- The instance of C1 at ` url(x); y` with fuel 6: the read yields the four
tokens through the semicolon and leaves `y`. -/
theorem truncated_view_witness :
    gtk_css_token_source_read_all (GTK_CSS_TOKEN_SOURCE_AT GTK_CSS_TOKEN_SOURCE_LIST) 6
        (gtk_css_token_source_new_at sample_import_tokens) =
      some ([tok FUNCTION, ident ['x'], tok CLOSE_PARENS, tok SEMICOLON],
        { source := [ident ['y']], blocks := [], done := true }) := by
  obtain ⟨ys, st, h1, _, _, h4, _, _, h7⟩ := truncated_view sample_import_tokens 6 (by decide)
  obtain ⟨g1, _⟩ := h7 [tok FUNCTION, ident ['x'], tok CLOSE_PARENS] (tok SEMICOLON)
    [ident ['y']] rfl (by decide) (by decide) (by decide)
  rw [h1, h4, g1]
  rfl

end Scan

/-! ## Draining and the dispatcher -/

section Dispatch

open GtkCssTokenType

/-- Draining is reading to the end and forgetting the tokens read. -/
theorem consume_all_eq_read_all {σ : Type} (cls : GtkCssTokenSourceClass σ) (fuel : Nat) :
    ∀ source : σ, gtk_css_token_source_consume_all cls fuel source =
      (gtk_css_token_source_read_all cls fuel source).map Prod.snd := by
  induction fuel with
  | zero => intro source; rfl
  | succ f ih =>
    intro source
    simp only [gtk_css_token_source_consume_all, gtk_css_token_source_read_all,
      gtk_css_token_source_get_token]
    split
    · rfl
    · rw [ih, Option.map_map]
      rfl

/-- A drain that returns keeps returning the same state with more fuel. -/
theorem consume_all_fuel_succ {σ : Type} (cls : GtkCssTokenSourceClass σ) (fuel : Nat) :
    ∀ (source st : σ), gtk_css_token_source_consume_all cls fuel source = some st →
      gtk_css_token_source_consume_all cls (fuel + 1) source = some st := by
  induction fuel with
  | zero => intro source st h; simp [gtk_css_token_source_consume_all] at h
  | succ f ih =>
    intro source st h
    rw [gtk_css_token_source_consume_all] at h ⊢
    split
    · rename_i heof; simpa [heof] using h
    · rename_i heof
      simp only [heof] at h
      exact ih _ _ h

/-- A drain started where the peek already reports end-of-input returns at once. -/
theorem consume_all_of_eof {σ : Type} (cls : GtkCssTokenSourceClass σ) (fuel : Nat) (source : σ)
    (hf : 0 < fuel) (h : (cls.peek_token source).type = EOF) :
    gtk_css_token_source_consume_all cls fuel source = some source := by
  obtain ⟨f, rfl⟩ : ∃ f, fuel = f + 1 := ⟨fuel - 1, by omega⟩
  simp [gtk_css_token_source_consume_all, gtk_css_token_source_get_token,
    gtk_css_token_source_peek_token, gtk_css_token_is, h]

/-- Draining a bounded source over a token list, with enough fuel, returns. -/
theorem list_consume_all_returns (self : GtkCssTokenSourceAt (List GtkCssToken)) (fuel : Nat)
    (hf : self.source.length < fuel) :
    ∃ ys st,
      gtk_css_token_source_read_all (GTK_CSS_TOKEN_SOURCE_AT GTK_CSS_TOKEN_SOURCE_LIST)
          fuel self = some (ys, st) ∧
        gtk_css_token_source_consume_all (GTK_CSS_TOKEN_SOURCE_AT GTK_CSS_TOKEN_SOURCE_LIST)
          fuel self = some st ∧
        ys ++ st.source = self.source ∧
        (gtk_css_token_source_at_peek_token GTK_CSS_TOKEN_SOURCE_LIST st).type = EOF := by
  obtain ⟨ys, st, h1, h2, h3, _⟩ := list_read_all_spec self.source self fuel rfl hf
  exact ⟨ys, st, h1, by rw [consume_all_eq_read_all, h1]; rfl, h2, h3⟩

/-- Over a list without end-of-input tokens, one more consume before a drain
does not change where the drain ends. -/
theorem list_consume_all_after_consume (self : GtkCssTokenSourceAt (List GtkCssToken))
    (fuel : Nat) (hl : ∀ t ∈ self.source, t.type ≠ EOF) (hf : self.source.length < fuel) :
    gtk_css_token_source_consume_all (GTK_CSS_TOKEN_SOURCE_AT GTK_CSS_TOKEN_SOURCE_LIST) fuel
        (gtk_css_token_source_at_consume_token GTK_CSS_TOKEN_SOURCE_LIST self) =
      gtk_css_token_source_consume_all (GTK_CSS_TOKEN_SOURCE_AT GTK_CSS_TOKEN_SOURCE_LIST) fuel
        self := by
  cases hd : self.done with
  | true => rw [at_consume_token_of_done _ self hd]
  | false =>
    cases hs : self.source with
    | nil => rw [list_at_consume_nil self hs]
    | cons t r =>
      obtain ⟨f, rfl⟩ : ∃ f, fuel = f + 1 := ⟨fuel - 1, by omega⟩
      have hne : t.type ≠ EOF := hl t (by simp [hs])
      have hsrc : (gtk_css_token_source_at_consume_token GTK_CSS_TOKEN_SOURCE_LIST
          self).source = r := by rw [list_at_consume_cons self t r hd hs]
      obtain ⟨_, st, _, h2, _⟩ := list_consume_all_returns
        (gtk_css_token_source_at_consume_token GTK_CSS_TOKEN_SOURCE_LIST self) f
        (by rw [hsrc]; simp [hs] at hf; omega)
      rw [consume_all_fuel_succ _ f _ st h2]
      have hp : (GTK_CSS_TOKEN_SOURCE_AT GTK_CSS_TOKEN_SOURCE_LIST).peek_token self = t := by
        simp [GTK_CSS_TOKEN_SOURCE_AT, gtk_css_token_source_at_peek_token, hd,
          gtk_css_token_source_peek_token, hs, GTK_CSS_TOKEN_SOURCE_LIST]
      rw [gtk_css_token_source_consume_all]
      simp only [gtk_css_token_source_get_token, gtk_css_token_source_peek_token, hp,
        gtk_css_token_is, hne, decide_False, Bool.false_eq_true, if_false]
      exact h2.symm

/-- A consume over a token list leaves the list as it is or drops its head. -/
theorem list_at_consume_source (self : GtkCssTokenSourceAt (List GtkCssToken)) :
    (gtk_css_token_source_at_consume_token GTK_CSS_TOKEN_SOURCE_LIST self).source = self.source ∨
      (gtk_css_token_source_at_consume_token GTK_CSS_TOKEN_SOURCE_LIST self).source =
        self.source.tail := by
  cases hd : self.done with
  | true => left; rw [at_consume_token_of_done _ self hd]
  | false => right; rw [at_consume_token_source _ self hd]; rfl

/-- Over a list without end-of-input tokens, any number of consumes before a
drain does not change where the drain ends. -/
theorem list_consume_all_after_consume_tokens (n : Nat) :
    ∀ (self : GtkCssTokenSourceAt (List GtkCssToken)) (fuel : Nat),
      (∀ t ∈ self.source, t.type ≠ EOF) → self.source.length < fuel →
      gtk_css_token_source_consume_all (GTK_CSS_TOKEN_SOURCE_AT GTK_CSS_TOKEN_SOURCE_LIST) fuel
          (gtk_css_token_source_at_consume_tokens GTK_CSS_TOKEN_SOURCE_LIST n self) =
        gtk_css_token_source_consume_all (GTK_CSS_TOKEN_SOURCE_AT GTK_CSS_TOKEN_SOURCE_LIST)
          fuel self := by
  induction n with
  | zero => intro self fuel _ _; rfl
  | succ n ih =>
    intro self fuel hl hf
    rw [gtk_css_token_source_at_consume_tokens]
    rw [ih _ fuel ?_ ?_, list_consume_all_after_consume self fuel hl hf]
    · intro t ht
      rcases list_at_consume_source self with h | h
      · rw [h] at ht; exact hl t ht
      · rw [h] at ht; exact hl t (List.mem_of_mem_tail ht)
    · rcases list_at_consume_source self with h | h
      · rw [h]; exact hf
      · rw [h, List.length_tail]; omega

/-- Over a list without end-of-input tokens, a drain after `n` consumes of a
fresh bounded source ends in the state a read of the whole bounded view ends in. -/
theorem list_drain_after_consumes (l : List GtkCssToken) (fuel n : Nat)
    (hl : ∀ t ∈ l, t.type ≠ EOF) (hf : l.length < fuel) :
    ∃ ys st,
      gtk_css_token_source_consume_all (GTK_CSS_TOKEN_SOURCE_AT GTK_CSS_TOKEN_SOURCE_LIST) fuel
          (gtk_css_token_source_at_consume_tokens GTK_CSS_TOKEN_SOURCE_LIST n
            (gtk_css_token_source_new_at l)) = some st ∧
        gtk_css_token_source_read_all (GTK_CSS_TOKEN_SOURCE_AT GTK_CSS_TOKEN_SOURCE_LIST) fuel
          (gtk_css_token_source_new_at l) = some (ys, st) ∧
        ys ++ st.source = l ∧
        (gtk_css_token_source_at_peek_token GTK_CSS_TOKEN_SOURCE_LIST st).type = EOF := by
  obtain ⟨ys, st, h1, h2, h3, h4⟩ :=
    list_consume_all_returns (gtk_css_token_source_new_at l) fuel hf
  refine ⟨ys, st, ?_, h1, h3, h4⟩
  rw [list_consume_all_after_consume_tokens n (gtk_css_token_source_new_at l) fuel hl hf]
  exact h2

/-- The leftover check after a sub-parser ran on a fresh bounded source over a
list without end-of-input tokens: it returns; if the sub-parser returned a rule,
the bounded source ends where a read of the whole view ends; if it returned no
rule, nothing further is consumed. -/
theorem check_end_after_parse {ρ S ε : Type} (kind : GtkCssRuleKind)
    (parse : GtkCssTokenSourceAt (List GtkCssToken) → Option ρ → S → GtkCssSubParse ρ ε)
    (l : List GtkCssToken) (fuel : Nat) (parent_rule : Option ρ) (parent_style_sheet : S)
    (hl : ∀ t ∈ l, t.type ≠ EOF) (hf : l.length < fuel) :
    ∃ r,
      gtk_css_rule_check_end GTK_CSS_TOKEN_SOURCE_LIST fuel
          (gtk_css_rule_parse_with GTK_CSS_TOKEN_SOURCE_LIST kind parse
            (gtk_css_token_source_new_at l) parent_rule parent_style_sheet) = some r ∧
        ((∀ c ∈ r.calls, c.result.rule ≠ none) →
          (∃ ys, gtk_css_token_source_read_all
              (GTK_CSS_TOKEN_SOURCE_AT GTK_CSS_TOKEN_SOURCE_LIST) fuel
              (gtk_css_token_source_new_at l) = some (ys, r.at_source) ∧
            ys ++ r.at_source.source = l) ∧
          (gtk_css_token_source_at_peek_token GTK_CSS_TOKEN_SOURCE_LIST r.at_source).type
            = EOF) ∧
        (∀ c ∈ r.calls, c.result.rule = none →
          r.rule = none ∧
          r.at_source = gtk_css_token_source_at_consume_tokens GTK_CSS_TOKEN_SOURCE_LIST
            c.result.consumed (gtk_css_token_source_new_at l)) := by
  obtain ⟨ys, st, h1, h2, h3, h4⟩ := list_drain_after_consumes l fuel
    (parse (gtk_css_token_source_new_at l) parent_rule parent_style_sheet).consumed hl hf
  unfold gtk_css_rule_check_end
  simp only [gtk_css_rule_parse_with]
  split
  · rename_i hjunk
    rw [h1]
    refine ⟨_, rfl, ?_, ?_⟩
    · intro _
      exact ⟨⟨ys, h2, h3⟩, h4⟩
    · intro c hc hnone
      simp only [List.mem_singleton] at hc
      subst hc
      simp only at hnone
      rw [hnone] at hjunk
      simp at hjunk
  · rename_i hjunk
    refine ⟨_, rfl, ?_, ?_⟩
    · intro hcalls
      have hsome := hcalls _ (List.mem_singleton.mpr rfl)
      simp only at hsome
      have heof : (gtk_css_token_source_at_peek_token GTK_CSS_TOKEN_SOURCE_LIST
          (gtk_css_token_source_at_consume_tokens GTK_CSS_TOKEN_SOURCE_LIST
            (parse (gtk_css_token_source_new_at l) parent_rule parent_style_sheet).consumed
            (gtk_css_token_source_new_at l))).type = EOF := by
        by_contra hne
        apply hjunk
        refine ⟨?_, ?_⟩
        · exact Option.isSome_iff_ne_none.mpr hsome
        · simpa [gtk_css_token_is, gtk_css_token_source_get_token,
            gtk_css_token_source_peek_token, GTK_CSS_TOKEN_SOURCE_AT] using hne
      have hstay := consume_all_of_eof (GTK_CSS_TOKEN_SOURCE_AT GTK_CSS_TOKEN_SOURCE_LIST) fuel
        (gtk_css_token_source_at_consume_tokens GTK_CSS_TOKEN_SOURCE_LIST
          (parse (gtk_css_token_source_new_at l) parent_rule parent_style_sheet).consumed
          (gtk_css_token_source_new_at l)) (by omega) heof
      rw [h1] at hstay
      simp only [Option.some.injEq] at hstay
      simp only
      rw [← hstay]
      exact ⟨⟨ys, h2, h3⟩, h4⟩
    · intro c hc hnone
      simp only [List.mem_singleton] at hc
      subst hc
      exact ⟨hnone, rfl⟩

/-- C10, as the code has it: over a token list without end-of-input tokens and
with enough fuel, `gtk_css_rule_new_from_at_rule` returns for every behaviour of
the sub-parsers.  Unless a sub-parser was run and returned no rule, the bounded
source ends exactly where a read of the whole bounded view from the start ends
(its peek reports end-of-input and the caller's list is the suffix after the
tokens of that view).  When the sub-parser returned no rule, the dispatcher
returns no rule and consumes nothing beyond what the sub-parser consumed. -/
theorem dispatch_positioning {ρ S ε : Type}
    (parsers : GtkCssRuleParsers (List GtkCssToken) ρ S ε) (l : List GtkCssToken) (fuel : Nat)
    (parent_rule : Option ρ) (parent_style_sheet : S)
    (hl : ∀ t ∈ l, t.type ≠ EOF) (hf : l.length < fuel) :
    ∃ r,
      gtk_css_rule_new_from_at_rule GTK_CSS_TOKEN_SOURCE_LIST parsers fuel l parent_rule
          parent_style_sheet = some r ∧
        ((∀ c ∈ r.calls, c.result.rule ≠ none) →
          (∃ ys, gtk_css_token_source_read_all
              (GTK_CSS_TOKEN_SOURCE_AT GTK_CSS_TOKEN_SOURCE_LIST) fuel
              (gtk_css_token_source_new_at l) = some (ys, r.at_source) ∧
            ys ++ r.at_source.source = l) ∧
          (gtk_css_token_source_at_peek_token GTK_CSS_TOKEN_SOURCE_LIST r.at_source).type
            = EOF) ∧
        (∀ c ∈ r.calls, c.result.rule = none →
          r.rule = none ∧
          r.at_source = gtk_css_token_source_at_consume_tokens GTK_CSS_TOKEN_SOURCE_LIST
            c.result.consumed (gtk_css_token_source_new_at l)) := by
  obtain ⟨ys, st, h1, h2, h3, h4⟩ := list_drain_after_consumes l fuel 0 hl hf
  simp only [gtk_css_token_source_at_consume_tokens] at h1
  unfold gtk_css_rule_new_from_at_rule
  simp only
  split
  · rw [h1]
    refine ⟨_, rfl, ?_, ?_⟩
    · intro _
      exact ⟨⟨ys, h2, h3⟩, h4⟩
    · intro c hc
      simp at hc
  · unfold gtk_css_rule_dispatch
    split
    · exact check_end_after_parse _ _ l fuel parent_rule parent_style_sheet hl hf
    · split
      · exact check_end_after_parse _ _ l fuel parent_rule parent_style_sheet hl hf
      · split
        · exact check_end_after_parse _ _ l fuel parent_rule parent_style_sheet hl hf
        · rw [h1]
          refine ⟨{ rule := none, at_source := st,
                    errors := [GtkCssDiagnostic.unknown_rule
                      (gtk_css_token_source_get_token
                        (GTK_CSS_TOKEN_SOURCE_AT GTK_CSS_TOKEN_SOURCE_LIST)
                        (gtk_css_token_source_new_at l)).string],
                    calls := [] }, ?_, ?_, ?_⟩
          · simp [gtk_css_rule_check_end]
          · intro _
            exact ⟨⟨ys, h2, h3⟩, h4⟩
          · intro c hc
            simp at hc

/-- The instance of C10 (as the code has it) at `@define-color a b ; bar` with
fuel 6, where the define-color sub-parser stops before the semicolon and returns
a rule. -/
theorem dispatch_positioning_witness :
    (∀ t ∈ sample_define_color_rule, t.type ≠ EOF) ∧ sample_define_color_rule.length < 6 ∧
      ∃ r,
        gtk_css_rule_new_from_at_rule GTK_CSS_TOKEN_SOURCE_LIST sample_parsers 6
            sample_define_color_rule none () = some r ∧
          ((∀ c ∈ r.calls, c.result.rule ≠ none) →
            (∃ ys, gtk_css_token_source_read_all
                (GTK_CSS_TOKEN_SOURCE_AT GTK_CSS_TOKEN_SOURCE_LIST) 6
                (gtk_css_token_source_new_at sample_define_color_rule) =
                  some (ys, r.at_source) ∧
              ys ++ r.at_source.source = sample_define_color_rule) ∧
            (gtk_css_token_source_at_peek_token GTK_CSS_TOKEN_SOURCE_LIST r.at_source).type
              = EOF) ∧
          (∀ c ∈ r.calls, c.result.rule = none →
            r.rule = none ∧
            r.at_source = gtk_css_token_source_at_consume_tokens GTK_CSS_TOKEN_SOURCE_LIST
              c.result.consumed (gtk_css_token_source_new_at sample_define_color_rule)) :=
  ⟨by decide, by decide,
    dispatch_positioning sample_parsers sample_define_color_rule 6 none () (by decide)
      (by decide)⟩

/-- C10 fails as stated: on `@import foo ; bar`, with an import sub-parser that
reports an error, consumes only the keyword and returns no rule, the dispatcher
returns no rule and drains nothing: the bounded view is not exhausted (its peek
is `foo`) and the caller's list is left mid-rule at `foo ; bar`, whereas a drain
of the bounded view would have left it at `bar`. -/
theorem dispatch_positioning_counterexample :
    ∃ r,
      gtk_css_rule_new_from_at_rule GTK_CSS_TOKEN_SOURCE_LIST sample_parsers 5
          sample_import_rule none () = some r ∧
        r.rule = none ∧
        r.errors = [GtkCssDiagnostic.reported ()] ∧
        gtk_css_token_source_at_peek_token GTK_CSS_TOKEN_SOURCE_LIST r.at_source =
          ident ['f', 'o', 'o'] ∧
        (gtk_css_token_source_at_peek_token GTK_CSS_TOKEN_SOURCE_LIST r.at_source).type ≠ EOF ∧
        r.at_source.source = [ident ['f', 'o', 'o'], tok SEMICOLON, ident ['b', 'a', 'r']] ∧
        (gtk_css_token_source_consume_all (GTK_CSS_TOKEN_SOURCE_AT GTK_CSS_TOKEN_SOURCE_LIST) 5
          (gtk_css_token_source_new_at sample_import_rule)).map (fun st => st.source) =
            some [ident ['b', 'a', 'r']] :=
  ⟨_, rfl, rfl, rfl, rfl, by decide, rfl, rfl⟩

end Dispatch

/-! ## Reachable states and termination -/

section Reachable

open GtkCssTokenType

/-- One tracked token keeps the stack made of closing tags, keeps it empty once
the latch is set, and changes its depth by at most one. -/
theorem at_track_invariant {σ : Type} (self : GtkCssTokenSourceAt σ) (type : GtkCssTokenType)
    (hb : ∀ b ∈ self.blocks, b ∈ [CLOSE_PARENS, CLOSE_SQUARE, CLOSE_CURLY])
    (hd : self.done = false) :
    (∀ b ∈ (gtk_css_token_source_at_track self type).blocks,
        b ∈ [CLOSE_PARENS, CLOSE_SQUARE, CLOSE_CURLY]) ∧
      ((gtk_css_token_source_at_track self type).done = true →
        (gtk_css_token_source_at_track self type).blocks = []) ∧
      (gtk_css_token_source_at_track self type).blocks.length ≤ self.blocks.length + 1 ∧
      self.blocks.length ≤ (gtk_css_token_source_at_track self type).blocks.length + 1 := by
  cases hbl : self.blocks with
  | nil =>
    cases type <;>
      simp [gtk_css_token_source_at_track, hbl, hd, g_slist_prepend]
  | cons b rest =>
    rw [hbl] at hb
    have hb1 := hb b (by simp)
    have hrest : ∀ x ∈ rest, x ∈ [CLOSE_PARENS, CLOSE_SQUARE, CLOSE_CURLY] :=
      fun x hx => hb x (by simp [hx])
    cases type <;>
      simp only [gtk_css_token_source_at_track, hbl, g_slist_prepend, g_slist_remove,
        List.erase_cons_head] <;>
      (repeat' split) <;>
      simp_all <;> omega

/-- One consume keeps the stack made of closing tags, keeps it empty once the
latch is set, and changes its depth by at most one. -/
theorem at_consume_token_invariant {σ : Type} (cls : GtkCssTokenSourceClass σ)
    (self : GtkCssTokenSourceAt σ)
    (hb : ∀ b ∈ self.blocks, b ∈ [CLOSE_PARENS, CLOSE_SQUARE, CLOSE_CURLY])
    (hd : self.done = true → self.blocks = []) :
    (∀ b ∈ (gtk_css_token_source_at_consume_token cls self).blocks,
        b ∈ [CLOSE_PARENS, CLOSE_SQUARE, CLOSE_CURLY]) ∧
      ((gtk_css_token_source_at_consume_token cls self).done = true →
        (gtk_css_token_source_at_consume_token cls self).blocks = []) ∧
      (gtk_css_token_source_at_consume_token cls self).blocks.length ≤
        self.blocks.length + 1 ∧
      self.blocks.length ≤
        (gtk_css_token_source_at_consume_token cls self).blocks.length + 1 := by
  cases hdone : self.done with
  | true =>
    rw [at_consume_token_of_done cls self hdone]
    exact ⟨hb, hd, by omega, by omega⟩
  | false =>
    rw [at_consume_token_blocks cls self hdone, at_consume_token_done cls self hdone]
    exact at_track_invariant self _ hb hdone

/-- C19: in every state reached from a freshly constructed bounded source by any
number of consumes, over any wrapped source, every entry of the bracket stack is
close-parenthesis, close-bracket or close-brace, `done = true` implies that the
stack is empty, and the next consume changes the stack depth by at most one. -/
theorem reachable_state_invariant {σ : Type} (cls : GtkCssTokenSourceClass σ) (source : σ)
    (k : Nat) :
    (∀ b ∈ (gtk_css_token_source_at_consume_tokens cls k
          (gtk_css_token_source_new_at source)).blocks,
        b ∈ [CLOSE_PARENS, CLOSE_SQUARE, CLOSE_CURLY]) ∧
      ((gtk_css_token_source_at_consume_tokens cls k
          (gtk_css_token_source_new_at source)).done = true →
        (gtk_css_token_source_at_consume_tokens cls k
          (gtk_css_token_source_new_at source)).blocks = []) ∧
      (gtk_css_token_source_at_consume_tokens cls (k + 1)
          (gtk_css_token_source_new_at source)).blocks.length ≤
        (gtk_css_token_source_at_consume_tokens cls k
          (gtk_css_token_source_new_at source)).blocks.length + 1 ∧
      (gtk_css_token_source_at_consume_tokens cls k
          (gtk_css_token_source_new_at source)).blocks.length ≤
        (gtk_css_token_source_at_consume_tokens cls (k + 1)
          (gtk_css_token_source_new_at source)).blocks.length + 1 := by
  have key : (∀ b ∈ (gtk_css_token_source_at_consume_tokens cls k
          (gtk_css_token_source_new_at source)).blocks,
        b ∈ [CLOSE_PARENS, CLOSE_SQUARE, CLOSE_CURLY]) ∧
      ((gtk_css_token_source_at_consume_tokens cls k
          (gtk_css_token_source_new_at source)).done = true →
        (gtk_css_token_source_at_consume_tokens cls k
          (gtk_css_token_source_new_at source)).blocks = []) := by
    induction k with
    | zero =>
      simp [gtk_css_token_source_at_consume_tokens, gtk_css_token_source_new_at]
    | succ k ih =>
      rw [at_consume_tokens_succ]
      have := at_consume_token_invariant cls _ ih.1 ih.2
      exact ⟨this.1, this.2.1⟩
  rw [at_consume_tokens_succ]
  have := at_consume_token_invariant cls _ key.1 key.2
  exact ⟨key.1, key.2, this.2.2.1, this.2.2.2⟩

theorem at_consume_tokens_add {σ : Type} (cls : GtkCssTokenSourceClass σ) (a b : Nat) :
    ∀ self : GtkCssTokenSourceAt σ,
      gtk_css_token_source_at_consume_tokens cls (a + b) self =
        gtk_css_token_source_at_consume_tokens cls b
          (gtk_css_token_source_at_consume_tokens cls a self) := by
  induction a with
  | zero => intro self; simp [gtk_css_token_source_at_consume_tokens]
  | succ a ih =>
    intro self
    rw [Nat.add_right_comm, gtk_css_token_source_at_consume_tokens, ih]
    rfl

/-- The latch never resets: a state that is done stays done under more consumes. -/
theorem at_consume_tokens_done_mono {σ : Type} (cls : GtkCssTokenSourceClass σ) (a b : Nat)
    (self : GtkCssTokenSourceAt σ) (hab : a ≤ b)
    (h : (gtk_css_token_source_at_consume_tokens cls a self).done = true) :
    (gtk_css_token_source_at_consume_tokens cls b self).done = true := by
  obtain ⟨j, rfl⟩ : ∃ j, b = a + j := ⟨b - a, by omega⟩
  rw [at_consume_tokens_add, at_consume_tokens_of_done _ _ _ h]
  exact h

/-- Over a token list, a state that is not done after `n` consumes has advanced
the list by exactly `n` tokens. -/
theorem list_at_consume_tokens_source (self : GtkCssTokenSourceAt (List GtkCssToken))
    (n : Nat)
    (h : (gtk_css_token_source_at_consume_tokens GTK_CSS_TOKEN_SOURCE_LIST n self).done
      = false) :
    (gtk_css_token_source_at_consume_tokens GTK_CSS_TOKEN_SOURCE_LIST n self).source =
      self.source.drop n := by
  induction n with
  | zero => rfl
  | succ n ih =>
    have hn : (gtk_css_token_source_at_consume_tokens GTK_CSS_TOKEN_SOURCE_LIST n self).done
        = false := by
      cases hdone : (gtk_css_token_source_at_consume_tokens GTK_CSS_TOKEN_SOURCE_LIST n
          self).done with
      | false => rfl
      | true =>
        rw [at_consume_tokens_done_mono _ n (n + 1) self (by omega) hdone] at h
        exact absurd h (by decide)
    rw [at_consume_tokens_succ, at_consume_token_source _ _ hn, ih hn]
    show (List.drop n self.source).tail = _
    rw [List.tail_drop]

/-- Over a token list, consumes beyond the length of the list change nothing. -/
theorem list_at_consume_tokens_stable (self : GtkCssTokenSourceAt (List GtkCssToken))
    (j : Nat) :
    gtk_css_token_source_at_consume_tokens GTK_CSS_TOKEN_SOURCE_LIST (self.source.length + j)
        self =
      gtk_css_token_source_at_consume_tokens GTK_CSS_TOKEN_SOURCE_LIST self.source.length
        self := by
  rw [at_consume_tokens_add]
  generalize hst : gtk_css_token_source_at_consume_tokens GTK_CSS_TOKEN_SOURCE_LIST
    self.source.length self = st
  have hfix : gtk_css_token_source_at_consume_token GTK_CSS_TOKEN_SOURCE_LIST st = st := by
    cases hdone : st.done with
    | true => exact at_consume_token_of_done _ st hdone
    | false =>
      apply list_at_consume_nil
      rw [← hst] at hdone ⊢
      rw [list_at_consume_tokens_source self _ hdone]
      simp
  induction j with
  | zero => rfl
  | succ j ih => rw [gtk_css_token_source_at_consume_tokens, hfix, ih]

/-- C15: over a token list, from any bounded-source state and with fuel above
the number of remaining tokens, the drain loop returns after `n` consumes with
`n` at most the number of remaining tokens, and ends with the bounded peek
reporting end-of-input; if `done` is ever set by consuming, it is set after at
most that many consumes; and a drain started where the bounded peek is not
end-of-input leaves the wrapped list strictly shorter. -/
theorem drain_terminates (self : GtkCssTokenSourceAt (List GtkCssToken)) (fuel : Nat)
    (hf : self.source.length < fuel) :
    ∃ n st,
      n ≤ self.source.length ∧
        gtk_css_token_source_consume_all (GTK_CSS_TOKEN_SOURCE_AT GTK_CSS_TOKEN_SOURCE_LIST)
          fuel self = some st ∧
        st = gtk_css_token_source_at_consume_tokens GTK_CSS_TOKEN_SOURCE_LIST n self ∧
        (gtk_css_token_source_at_peek_token GTK_CSS_TOKEN_SOURCE_LIST st).type = EOF ∧
        (∀ m, (gtk_css_token_source_at_consume_tokens GTK_CSS_TOKEN_SOURCE_LIST m self).done
            = true →
          ∃ k, k ≤ self.source.length ∧ k ≤ m ∧
            (gtk_css_token_source_at_consume_tokens GTK_CSS_TOKEN_SOURCE_LIST k self).done
              = true) ∧
        ((gtk_css_token_source_at_peek_token GTK_CSS_TOKEN_SOURCE_LIST self).type ≠ EOF →
          0 < n ∧ st.source.length < self.source.length) := by
  obtain ⟨ys, st, h1, h2, h3, h4, _⟩ := list_read_all_spec self.source self fuel rfl hf
  have hlen : ys.length + st.source.length = self.source.length := by
    rw [← h2]; simp
  refine ⟨ys.length, st, by omega, ?_, h4, h3, ?_, ?_⟩
  · rw [consume_all_eq_read_all, h1]; rfl
  · intro m hm
    by_cases hle : m ≤ self.source.length
    · exact ⟨m, hle, le_refl m, hm⟩
    · refine ⟨self.source.length, le_refl _, by omega, ?_⟩
      obtain ⟨j, rfl⟩ : ∃ j, m = self.source.length + j :=
        ⟨m - self.source.length, by omega⟩
      rw [list_at_consume_tokens_stable] at hm
      exact hm
  · intro hne
    have hpos : 0 < ys.length := by
      rcases Nat.eq_zero_or_pos ys.length with h0 | hpos
      · exfalso
        apply hne
        rw [h0] at h4
        simp only [gtk_css_token_source_at_consume_tokens] at h4
        rw [← h4]; exact h3
      · exact hpos
    exact ⟨hpos, by omega⟩

/-- The instance of C15 at a source inside `url(` about to read `) ; y`, with
fuel 4. -/
theorem drain_terminates_witness :
    sample_in_parens.source.length < 4 ∧
      ∃ n st,
        n ≤ sample_in_parens.source.length ∧
          gtk_css_token_source_consume_all
            (GTK_CSS_TOKEN_SOURCE_AT GTK_CSS_TOKEN_SOURCE_LIST) 4 sample_in_parens = some st ∧
          st = gtk_css_token_source_at_consume_tokens GTK_CSS_TOKEN_SOURCE_LIST n
            sample_in_parens ∧
          (gtk_css_token_source_at_peek_token GTK_CSS_TOKEN_SOURCE_LIST st).type = EOF ∧
          (∀ m, (gtk_css_token_source_at_consume_tokens GTK_CSS_TOKEN_SOURCE_LIST m
              sample_in_parens).done = true →
            ∃ k, k ≤ sample_in_parens.source.length ∧ k ≤ m ∧
              (gtk_css_token_source_at_consume_tokens GTK_CSS_TOKEN_SOURCE_LIST k
                sample_in_parens).done = true) ∧
          ((gtk_css_token_source_at_peek_token GTK_CSS_TOKEN_SOURCE_LIST
              sample_in_parens).type ≠ EOF →
            0 < n ∧ st.source.length < sample_in_parens.source.length) :=
  ⟨by decide, drain_terminates sample_in_parens 4 (by decide)⟩

end Reachable

/-! ## Keyword routing and the error paths of the dispatcher -/

section Routing

open GtkCssTokenType

theorem g_ascii_tolower_eq_toLower (c : Char) : g_ascii_tolower c = c.toLower := by
  simp only [g_ascii_tolower, Char.toLower, Char.le_def, ge_iff_le]
  rfl

theorem char_toNat_eq_zero (c : Char) : c.toNat = 0 ↔ c = Char.ofNat 0 := by
  constructor
  · intro h
    rw [← Char.ofNat_toNat c, h]
  · intro h
    rw [h]; rfl

theorem char_toNat_injective (a b : Char) (h : a.toNat = b.toNat) : a = b := by
  rw [← Char.ofNat_toNat a, ← Char.ofNat_toNat b, h]

/-- Lower-casing never produces or removes the terminating character 0. -/
theorem g_ascii_tolower_toNat_eq_zero (c : Char) :
    (g_ascii_tolower c).toNat = 0 ↔ c = Char.ofNat 0 := by
  rw [g_ascii_tolower_eq_toLower]
  unfold Char.toLower
  simp only
  split
  · rename_i h
    constructor
    · intro h0
      exfalso
      have h1 : 65 ≤ c.toNat := h.1
      have h2 : c.toNat ≤ 90 := h.2
      interval_cases hc : c.toNat <;> simp at h0
    · intro h0
      rw [h0] at h
      exact absurd h.1 (by decide)
  · exact char_toNat_eq_zero c

/-- On texts without the character 0 (the texts of C strings),
`g_ascii_strcasecmp` returns 0 exactly when the lower-cased texts are equal. -/
theorem g_ascii_strcasecmp_eq_zero_iff (a : List Char) :
    ∀ b : List Char, (∀ c ∈ a, c ≠ Char.ofNat 0) → (∀ c ∈ b, c ≠ Char.ofNat 0) →
      (g_ascii_strcasecmp a b = 0 ↔ a.map g_ascii_tolower = b.map g_ascii_tolower) := by
  induction a with
  | nil =>
    intro b _ hb
    cases b with
    | nil => simp [g_ascii_strcasecmp]
    | cons c2 s2 =>
      have h2 := hb c2 (by simp)
      have : ¬ (g_ascii_tolower c2).toNat = 0 := fun h =>
        h2 ((g_ascii_tolower_toNat_eq_zero c2).mp h)
      simp only [g_ascii_strcasecmp, List.map_nil, List.map_cons]
      constructor
      · intro h; exfalso; apply this; omega
      · intro h; cases h
  | cons c1 s1 ih =>
    intro b ha hb
    cases b with
    | nil =>
      have h1 := ha c1 (by simp)
      have : ¬ (g_ascii_tolower c1).toNat = 0 := fun h =>
        h1 ((g_ascii_tolower_toNat_eq_zero c1).mp h)
      simp only [g_ascii_strcasecmp, List.map_nil, List.map_cons]
      constructor
      · intro h; exfalso; apply this; omega
      · intro h; cases h
    | cons c2 s2 =>
      simp only [g_ascii_strcasecmp, List.map_cons, List.cons.injEq]
      split
      · rename_i heq
        rw [ih s2 (fun c hc => ha c (by simp [hc])) (fun c hc => hb c (by simp [hc]))]
        simp [heq]
      · rename_i hne
        constructor
        · intro h
          exfalso; apply hne
          apply char_toNat_injective
          omega
        · intro h
          exact absurd h.1 hne

/-- The comparison the code makes is the spec's case-insensitive match. -/
theorem g_ascii_strcasecmp_iff_spec (a b : List Char) (ha : ∀ c ∈ a, c ≠ Char.ofNat 0)
    (hb : ∀ c ∈ b, c ≠ Char.ofNat 0) :
    g_ascii_strcasecmp a b = 0 ↔ ascii_case_insensitive_eq a b = true := by
  rw [g_ascii_strcasecmp_eq_zero_iff a b ha hb]
  have : g_ascii_tolower = Char.toLower := funext g_ascii_tolower_eq_toLower
  simp [ascii_case_insensitive_eq, this]

/-- The keyword chain of the code is the spec's dispatch table. -/
theorem gtk_css_rule_dispatch_eq_table {σ ρ S ε : Type} (cls : GtkCssTokenSourceClass σ)
    (parsers : GtkCssRuleParsers σ ρ S ε) (fuel : Nat) (token : GtkCssToken)
    (at_source : GtkCssTokenSourceAt σ) (parent_rule : Option ρ) (parent_style_sheet : S)
    (hnul : ∀ c ∈ token.string, c ≠ Char.ofNat 0) :
    gtk_css_rule_dispatch cls parsers fuel token at_source parent_rule parent_style_sheet =
      match dispatch_table token.string with
      | some kind =>
          some (gtk_css_rule_parse_with cls kind (parsers.of_kind kind) at_source parent_rule
            parent_style_sheet)
      | none =>
          (gtk_css_token_source_consume_all (GTK_CSS_TOKEN_SOURCE_AT cls) fuel at_source).map
            (fun drained =>
              { rule := none, at_source := drained,
                errors := [GtkCssDiagnostic.unknown_rule token.string], calls := [] }) := by
  have e1 := g_ascii_strcasecmp_iff_spec token.string ['i', 'm', 'p', 'o', 'r', 't'] hnul
    (by decide)
  have e2 := g_ascii_strcasecmp_iff_spec token.string
    ['d', 'e', 'f', 'i', 'n', 'e', '-', 'c', 'o', 'l', 'o', 'r'] hnul (by decide)
  have e3 := g_ascii_strcasecmp_iff_spec token.string
    ['k', 'e', 'y', 'f', 'r', 'a', 'm', 'e', 's'] hnul (by decide)
  unfold gtk_css_rule_dispatch dispatch_table
  simp only [e1, e2, e3]
  split_ifs <;> rfl

/-- The dispatch table selects a kind exactly when the keyword matches that
kind's name, and nothing exactly when it matches none of the three names. -/
theorem dispatch_table_spec (keyword : List Char) :
    (dispatch_table keyword = some GtkCssRuleKind.import_rule ↔
        ascii_case_insensitive_eq keyword ['i', 'm', 'p', 'o', 'r', 't'] = true) ∧
      (dispatch_table keyword = some GtkCssRuleKind.define_color_rule ↔
        ascii_case_insensitive_eq keyword
          ['d', 'e', 'f', 'i', 'n', 'e', '-', 'c', 'o', 'l', 'o', 'r'] = true) ∧
      (dispatch_table keyword = some GtkCssRuleKind.keyframes_rule ↔
        ascii_case_insensitive_eq keyword
          ['k', 'e', 'y', 'f', 'r', 'a', 'm', 'e', 's'] = true) ∧
      (dispatch_table keyword = none ↔
        ascii_case_insensitive_eq keyword ['i', 'm', 'p', 'o', 'r', 't'] = false ∧
        ascii_case_insensitive_eq keyword
          ['d', 'e', 'f', 'i', 'n', 'e', '-', 'c', 'o', 'l', 'o', 'r'] = false ∧
        ascii_case_insensitive_eq keyword
          ['k', 'e', 'y', 'f', 'r', 'a', 'm', 'e', 's'] = false) := by
  have excl1 : ascii_case_insensitive_eq keyword ['i', 'm', 'p', 'o', 'r', 't'] = true →
      ascii_case_insensitive_eq keyword
        ['d', 'e', 'f', 'i', 'n', 'e', '-', 'c', 'o', 'l', 'o', 'r'] = true → False := by
    intro h1 h2
    simp only [ascii_case_insensitive_eq, decide_eq_true_eq] at h1 h2
    rw [h1] at h2
    revert h2; decide
  have excl2 : ascii_case_insensitive_eq keyword ['i', 'm', 'p', 'o', 'r', 't'] = true →
      ascii_case_insensitive_eq keyword
        ['k', 'e', 'y', 'f', 'r', 'a', 'm', 'e', 's'] = true → False := by
    intro h1 h2
    simp only [ascii_case_insensitive_eq, decide_eq_true_eq] at h1 h2
    rw [h1] at h2
    revert h2; decide
  have excl3 : ascii_case_insensitive_eq keyword
        ['d', 'e', 'f', 'i', 'n', 'e', '-', 'c', 'o', 'l', 'o', 'r'] = true →
      ascii_case_insensitive_eq keyword
        ['k', 'e', 'y', 'f', 'r', 'a', 'm', 'e', 's'] = true → False := by
    intro h1 h2
    simp only [ascii_case_insensitive_eq, decide_eq_true_eq] at h1 h2
    rw [h1] at h2
    revert h2; decide
  unfold dispatch_table
  cases h1 : ascii_case_insensitive_eq keyword ['i', 'm', 'p', 'o', 'r', 't'] <;>
    cases h2 : ascii_case_insensitive_eq keyword
      ['d', 'e', 'f', 'i', 'n', 'e', '-', 'c', 'o', 'l', 'o', 'r'] <;>
    cases h3 : ascii_case_insensitive_eq keyword
      ['k', 'e', 'y', 'f', 'r', 'a', 'm', 'e', 's'] <;>
    simp_all

/-- Over a token list, consumes never lengthen the wrapped list. -/
theorem list_at_consume_tokens_length (n : Nat) :
    ∀ self : GtkCssTokenSourceAt (List GtkCssToken),
      (gtk_css_token_source_at_consume_tokens GTK_CSS_TOKEN_SOURCE_LIST n self).source.length ≤
        self.source.length := by
  induction n with
  | zero => intro self; exact le_refl _
  | succ n ih =>
    intro self
    rw [gtk_css_token_source_at_consume_tokens]
    refine le_trans (ih _) ?_
    rcases list_at_consume_source self with h | h
    · rw [h]
    · rw [h, List.length_tail]; omega

/-- Draining a fresh bounded source over a token list, with enough fuel: the
drain returns, it ends where a read of the bounded view ends, and when `x` is
the first token of `p ++ x :: rest` to set the latch the wrapped list is left
at `rest`. -/
theorem list_drain_fresh_spec (l : List GtkCssToken) (fuel : Nat) (hf : l.length < fuel) :
    ∃ ys st,
      gtk_css_token_source_consume_all (GTK_CSS_TOKEN_SOURCE_AT GTK_CSS_TOKEN_SOURCE_LIST) fuel
          (gtk_css_token_source_new_at l) = some st ∧
        gtk_css_token_source_read_all (GTK_CSS_TOKEN_SOURCE_AT GTK_CSS_TOKEN_SOURCE_LIST) fuel
          (gtk_css_token_source_new_at l) = some (ys, st) ∧
        ys ++ st.source = l ∧
        (gtk_css_token_source_at_peek_token GTK_CSS_TOKEN_SOURCE_LIST st).type = EOF ∧
        (∀ p x rest, l = p ++ x :: rest → (∀ y ∈ p, y.type ≠ EOF) →
          (at_state_after l p.length).done = false →
          (at_state_after l (p.length + 1)).done = true →
          ys = p ++ [x] ∧ st.source = rest ∧ st.done = true) := by
  obtain ⟨ys, st, h1, h2, h3, h4⟩ :=
    list_consume_all_returns (gtk_css_token_source_new_at l) fuel hf
  refine ⟨ys, st, h2, h1, h3, h4, ?_⟩
  intro p x rest hl hp hd hlatch
  obtain ⟨st2, g1, g2⟩ :=
    list_read_all_latch p x rest (gtk_css_token_source_new_at l) fuel hl (hl ▸ hf) hp hd hlatch
  obtain ⟨_, _, k1, _, _, k4, _⟩ :=
    list_read_all_spec l (gtk_css_token_source_new_at l) fuel rfl hf
  rw [h1] at g1 k1
  simp only [Option.some.injEq, Prod.mk.injEq] at g1 k1
  refine ⟨g1.1, g1.2 ▸ g2, ?_⟩
  rw [← k1.2] at k4
  rw [k4, ← k1.1, g1.1]
  simpa using hlatch

/-- While the source is not done, the scanner's stack update is the spec's, and
it sets the latch exactly on the spec's terminator. -/
theorem at_track_eq_spec {σ : Type} (self : GtkCssTokenSourceAt σ) (type : GtkCssTokenType)
    (hd : self.done = false) :
    (gtk_css_token_source_at_track self type).blocks = spec_stack_step self.blocks type ∧
      (gtk_css_token_source_at_track self type).done = is_terminator self.blocks type := by
  cases hb : self.blocks with
  | nil =>
    cases type <;>
      simp [gtk_css_token_source_at_track, spec_stack_step, is_terminator, closer_of,
        is_closer, g_slist_prepend, hb, hd]
  | cons b rest =>
    cases type <;>
      simp only [gtk_css_token_source_at_track, spec_stack_step, is_terminator, closer_of,
        is_closer, g_slist_prepend, g_slist_remove, List.erase_cons_head, hb] <;>
      (repeat' split) <;> simp_all

/-- Draining a bounded source over a token list that is not done, with enough
fuel, leaves the wrapped list at the tokens that follow the rule's terminator. -/
theorem list_drain_after_terminator (l : List GtkCssToken) :
    ∀ (self : GtkCssTokenSourceAt (List GtkCssToken)) (fuel : Nat),
      self.source = l → self.done = false → l.length < fuel →
      ∃ st,
        gtk_css_token_source_consume_all (GTK_CSS_TOKEN_SOURCE_AT GTK_CSS_TOKEN_SOURCE_LIST)
            fuel self = some st ∧
          st.source = after_terminator self.blocks l := by
  induction l with
  | nil =>
    intro self fuel hs hd hf
    obtain ⟨f, rfl⟩ : ∃ f, fuel = f + 1 := ⟨fuel - 1, by omega⟩
    refine ⟨self, ?_, by rw [hs]; rfl⟩
    apply consume_all_of_eof _ _ _ (by omega)
    show (gtk_css_token_source_at_peek_token GTK_CSS_TOKEN_SOURCE_LIST self).type = EOF
    simp [gtk_css_token_source_at_peek_token, hd, gtk_css_token_source_peek_token, hs,
      GTK_CSS_TOKEN_SOURCE_LIST, eof_token]
  | cons t rest ih =>
    intro self fuel hs hd hf
    obtain ⟨f, rfl⟩ : ∃ f, fuel = f + 1 := ⟨fuel - 1, by omega⟩
    have hpeek : (GTK_CSS_TOKEN_SOURCE_AT GTK_CSS_TOKEN_SOURCE_LIST).peek_token self = t := by
      simp [GTK_CSS_TOKEN_SOURCE_AT, gtk_css_token_source_at_peek_token, hd,
        gtk_css_token_source_peek_token, hs, GTK_CSS_TOKEN_SOURCE_LIST]
    by_cases heof : t.type = EOF
    · refine ⟨self, ?_, by rw [hs]; simp [after_terminator, heof]⟩
      apply consume_all_of_eof _ _ _ (by omega)
      rw [hpeek]; exact heof
    · have hnext := list_at_consume_cons self t rest hd hs
      obtain ⟨hbl, hdn⟩ := at_track_eq_spec self t.type hd
      have hunfold : gtk_css_token_source_consume_all
          (GTK_CSS_TOKEN_SOURCE_AT GTK_CSS_TOKEN_SOURCE_LIST) (f + 1) self =
          gtk_css_token_source_consume_all
            (GTK_CSS_TOKEN_SOURCE_AT GTK_CSS_TOKEN_SOURCE_LIST) f
            (gtk_css_token_source_at_consume_token GTK_CSS_TOKEN_SOURCE_LIST self) := by
        rw [gtk_css_token_source_consume_all]
        simp only [gtk_css_token_source_get_token, gtk_css_token_source_peek_token, hpeek,
          gtk_css_token_is, heof, decide_False, Bool.false_eq_true, if_false]
        rfl
      rw [hunfold]
      simp only [after_terminator, heof, if_false]
      cases hterm : is_terminator self.blocks t.type with
      | true =>
        have hdone : (gtk_css_token_source_at_consume_token GTK_CSS_TOKEN_SOURCE_LIST
            self).done = true := by
          rw [hnext]
          show (gtk_css_token_source_at_track _ _).done = _
          rw [hdn, hterm]
        refine ⟨gtk_css_token_source_at_consume_token GTK_CSS_TOKEN_SOURCE_LIST self, ?_, ?_⟩
        · apply consume_all_of_eof _ _ _ (by simp at hf; omega)
          show (gtk_css_token_source_at_peek_token GTK_CSS_TOKEN_SOURCE_LIST _).type = EOF
          simp [gtk_css_token_source_at_peek_token, hdone, eof_token]
        · rw [hnext]; simp
      | false =>
        have hdone : (gtk_css_token_source_at_consume_token GTK_CSS_TOKEN_SOURCE_LIST
            self).done = false := by
          rw [hnext]
          show (gtk_css_token_source_at_track _ _).done = _
          rw [hdn, hterm]
        have hsrc : (gtk_css_token_source_at_consume_token GTK_CSS_TOKEN_SOURCE_LIST
            self).source = rest := by rw [hnext]
        obtain ⟨st, h1, h2⟩ := ih _ f hsrc hdone (by simp at hf; omega)
        refine ⟨st, h1, ?_⟩
        rw [h2, hnext]
        show after_terminator (gtk_css_token_source_at_track self t.type).blocks rest = _
        rw [hbl]
        simp

/-- The dispatcher on a list whose first token is an at-keyword with a keyword of
the dispatch table: the matching sub-parser runs, then the leftover check. -/
theorem new_from_at_rule_known {ρ S ε : Type}
    (parsers : GtkCssRuleParsers (List GtkCssToken) ρ S ε) (t : GtkCssToken)
    (rest : List GtkCssToken) (fuel : Nat) (parent_rule : Option ρ) (parent_style_sheet : S)
    (kind : GtkCssRuleKind) (ht : t.type = AT_KEYWORD)
    (hnul : ∀ c ∈ t.string, c ≠ Char.ofNat 0) (hk : dispatch_table t.string = some kind) :
    gtk_css_rule_new_from_at_rule GTK_CSS_TOKEN_SOURCE_LIST parsers fuel (t :: rest)
        parent_rule parent_style_sheet =
      gtk_css_rule_check_end GTK_CSS_TOKEN_SOURCE_LIST fuel
        (gtk_css_rule_parse_with GTK_CSS_TOKEN_SOURCE_LIST kind (parsers.of_kind kind)
          (gtk_css_token_source_new_at (t :: rest)) parent_rule parent_style_sheet) := by
  have hpeek : gtk_css_token_source_get_token
      (GTK_CSS_TOKEN_SOURCE_AT GTK_CSS_TOKEN_SOURCE_LIST)
      (gtk_css_token_source_new_at (t :: rest)) = t := rfl
  unfold gtk_css_rule_new_from_at_rule
  simp only [hpeek, ht, ne_eq, not_true_eq_false, if_false]
  rw [gtk_css_rule_dispatch_eq_table _ _ _ _ _ _ _ hnul, hk]
  rfl

/-- The dispatcher on a list whose first token is an at-keyword with a keyword
outside the dispatch table: the unknown-rule report and a drain. -/
theorem new_from_at_rule_unknown {ρ S ε : Type}
    (parsers : GtkCssRuleParsers (List GtkCssToken) ρ S ε) (t : GtkCssToken)
    (rest : List GtkCssToken) (fuel : Nat) (parent_rule : Option ρ) (parent_style_sheet : S)
    (ht : t.type = AT_KEYWORD)
    (hnul : ∀ c ∈ t.string, c ≠ Char.ofNat 0) (hk : dispatch_table t.string = none) :
    gtk_css_rule_new_from_at_rule GTK_CSS_TOKEN_SOURCE_LIST parsers fuel (t :: rest)
        parent_rule parent_style_sheet =
      (gtk_css_token_source_consume_all (GTK_CSS_TOKEN_SOURCE_AT GTK_CSS_TOKEN_SOURCE_LIST)
          fuel (gtk_css_token_source_new_at (t :: rest))).map
        (fun drained =>
          { rule := none, at_source := drained,
            errors := [GtkCssDiagnostic.unknown_rule t.string], calls := [] }) := by
  have hpeek : gtk_css_token_source_get_token
      (GTK_CSS_TOKEN_SOURCE_AT GTK_CSS_TOKEN_SOURCE_LIST)
      (gtk_css_token_source_new_at (t :: rest)) = t := rfl
  unfold gtk_css_rule_new_from_at_rule
  simp only [hpeek, ht, ne_eq, not_true_eq_false, if_false]
  rw [gtk_css_rule_dispatch_eq_table _ _ _ _ _ _ _ hnul, hk]
  cases gtk_css_token_source_consume_all (GTK_CSS_TOKEN_SOURCE_AT GTK_CSS_TOKEN_SOURCE_LIST)
      fuel (gtk_css_token_source_new_at (t :: rest)) with
  | none => rfl
  | some st => simp [gtk_css_rule_check_end]

/-- The leftover check over a token list, with enough fuel: it returns and keeps
the call record; the rule survives exactly when there is one and the bounded
peek reports end-of-input, and then nothing changes; a rule followed by another
token is dropped, reported as junk, and the bounded source is drained. -/
theorem list_check_end_spec {ρ S ε : Type} (fuel : Nat)
    (r0 : GtkCssAtRuleResult (List GtkCssToken) ρ S ε)
    (hf : r0.at_source.source.length < fuel) :
    ∃ r,
      gtk_css_rule_check_end GTK_CSS_TOKEN_SOURCE_LIST fuel r0 = some r ∧
        r.calls = r0.calls ∧
        (r.rule.isSome = true ↔
          (r0.rule.isSome = true ∧
            (gtk_css_token_source_at_peek_token GTK_CSS_TOKEN_SOURCE_LIST r0.at_source).type
              = EOF)) ∧
        (r.rule.isSome = true → r = r0) ∧
        (r0.rule = none → r = r0) ∧
        (r0.rule.isSome = true →
          (gtk_css_token_source_at_peek_token GTK_CSS_TOKEN_SOURCE_LIST r0.at_source).type
            ≠ EOF →
          r.rule = none ∧ r.errors = r0.errors ++ [GtkCssDiagnostic.junk_at_end] ∧
            gtk_css_token_source_consume_all
              (GTK_CSS_TOKEN_SOURCE_AT GTK_CSS_TOKEN_SOURCE_LIST) fuel r0.at_source
              = some r.at_source ∧
            (gtk_css_token_source_at_peek_token GTK_CSS_TOKEN_SOURCE_LIST r.at_source).type
              = EOF) := by
  obtain ⟨_, st, _, h2, _, h4⟩ := list_consume_all_returns r0.at_source fuel hf
  have hcond : (gtk_css_token_is
      (gtk_css_token_source_get_token (GTK_CSS_TOKEN_SOURCE_AT GTK_CSS_TOKEN_SOURCE_LIST)
        r0.at_source) EOF = false) ↔
      (gtk_css_token_source_at_peek_token GTK_CSS_TOKEN_SOURCE_LIST r0.at_source).type
        ≠ EOF := by
    simp [gtk_css_token_is, gtk_css_token_source_get_token, gtk_css_token_source_peek_token,
      GTK_CSS_TOKEN_SOURCE_AT]
  unfold gtk_css_rule_check_end
  simp only [hcond]
  split
  · rename_i hjunk
    rw [h2]
    refine ⟨_, rfl, rfl, ?_, ?_, ?_, ?_⟩
    · simp only [Option.isSome_none, Bool.false_eq_true, false_iff, not_and]
      intro _ h; exact hjunk.2 h
    · intro h; simp at h
    · intro h; rw [h] at hjunk; simp at hjunk
    · intro _ _
      exact ⟨rfl, rfl, rfl, h4⟩
  · rename_i hjunk
    refine ⟨r0, rfl, rfl, ?_, fun _ => rfl, fun _ => rfl, ?_⟩
    · constructor
      · intro h
        refine ⟨h, ?_⟩
        by_contra hne
        exact hjunk ⟨h, hne⟩
      · intro h; exact h.1
    · intro h hne
      exact absurd ⟨h, hne⟩ hjunk

/-- C11: for a list starting with an at-keyword of the dispatch table (and with
enough fuel), the dispatcher returns a rule exactly when the sub-parser returned
one and the token fetched from the bounded source afterwards is end-of-input,
and then it is that very rule, with nothing further consumed or reported; when
the sub-parser returned a rule and another token follows, the dispatcher returns
no rule, appends the junk-at-end report to the sub-parser's reports, and drains
the bounded source to its end. -/
theorem trailing_junk_discards_rule {ρ S ε : Type}
    (parsers : GtkCssRuleParsers (List GtkCssToken) ρ S ε) (t : GtkCssToken)
    (rest : List GtkCssToken) (fuel : Nat) (parent_rule : Option ρ) (parent_style_sheet : S)
    (kind : GtkCssRuleKind) (ht : t.type = AT_KEYWORD)
    (hnul : ∀ c ∈ t.string, c ≠ Char.ofNat 0) (hk : dispatch_table t.string = some kind)
    (hf : (t :: rest).length < fuel) :
    ∃ r,
      gtk_css_rule_new_from_at_rule GTK_CSS_TOKEN_SOURCE_LIST parsers fuel (t :: rest)
          parent_rule parent_style_sheet = some r ∧
        (r.rule.isSome = true ↔
          ((parsers.of_kind kind (gtk_css_token_source_new_at (t :: rest)) parent_rule
              parent_style_sheet).rule.isSome = true ∧
            (gtk_css_token_source_at_peek_token GTK_CSS_TOKEN_SOURCE_LIST
              (gtk_css_token_source_at_consume_tokens GTK_CSS_TOKEN_SOURCE_LIST
                (parsers.of_kind kind (gtk_css_token_source_new_at (t :: rest)) parent_rule
                  parent_style_sheet).consumed
                (gtk_css_token_source_new_at (t :: rest)))).type = EOF)) ∧
        (r.rule.isSome = true →
          r.rule = (parsers.of_kind kind (gtk_css_token_source_new_at (t :: rest)) parent_rule
              parent_style_sheet).rule ∧
            r.errors = (parsers.of_kind kind (gtk_css_token_source_new_at (t :: rest))
              parent_rule parent_style_sheet).errors.map GtkCssDiagnostic.reported ∧
            r.at_source = gtk_css_token_source_at_consume_tokens GTK_CSS_TOKEN_SOURCE_LIST
              (parsers.of_kind kind (gtk_css_token_source_new_at (t :: rest)) parent_rule
                parent_style_sheet).consumed
              (gtk_css_token_source_new_at (t :: rest))) ∧
        ((parsers.of_kind kind (gtk_css_token_source_new_at (t :: rest)) parent_rule
              parent_style_sheet).rule.isSome = true →
          (gtk_css_token_source_at_peek_token GTK_CSS_TOKEN_SOURCE_LIST
              (gtk_css_token_source_at_consume_tokens GTK_CSS_TOKEN_SOURCE_LIST
                (parsers.of_kind kind (gtk_css_token_source_new_at (t :: rest)) parent_rule
                  parent_style_sheet).consumed
                (gtk_css_token_source_new_at (t :: rest)))).type ≠ EOF →
          r.rule = none ∧
            r.errors = (parsers.of_kind kind (gtk_css_token_source_new_at (t :: rest))
              parent_rule parent_style_sheet).errors.map GtkCssDiagnostic.reported ++
                [GtkCssDiagnostic.junk_at_end] ∧
            gtk_css_token_source_consume_all
              (GTK_CSS_TOKEN_SOURCE_AT GTK_CSS_TOKEN_SOURCE_LIST) fuel
              (gtk_css_token_source_at_consume_tokens GTK_CSS_TOKEN_SOURCE_LIST
                (parsers.of_kind kind (gtk_css_token_source_new_at (t :: rest)) parent_rule
                  parent_style_sheet).consumed
                (gtk_css_token_source_new_at (t :: rest))) = some r.at_source ∧
            (gtk_css_token_source_at_peek_token GTK_CSS_TOKEN_SOURCE_LIST r.at_source).type
              = EOF) := by
  rw [new_from_at_rule_known parsers t rest fuel parent_rule parent_style_sheet kind ht hnul hk]
  obtain ⟨r, h1, _, h3, h4, _, h6⟩ := list_check_end_spec fuel
    (gtk_css_rule_parse_with GTK_CSS_TOKEN_SOURCE_LIST kind (parsers.of_kind kind)
      (gtk_css_token_source_new_at (t :: rest)) parent_rule parent_style_sheet)
    (lt_of_le_of_lt (list_at_consume_tokens_length _ _) hf)
  refine ⟨r, h1, h3, ?_, h6⟩
  intro h
  rw [h4 h]
  exact ⟨rfl, rfl, rfl⟩

/-- The instance of C11 at `@import url(x) extra-garbage ; next`, where the
sub-parser stops after `url(x)` and returns a rule: no rule is returned, junk is
reported, and the caller's list is left at `next`. -/
theorem trailing_junk_discards_rule_witness :
    ∃ r,
      gtk_css_rule_new_from_at_rule GTK_CSS_TOKEN_SOURCE_LIST sample_parsers_junk 8
          sample_junk_rule none () = some r ∧
        r.rule = none ∧ r.errors = [GtkCssDiagnostic.junk_at_end] ∧
        r.at_source.source = [ident ['n', 'e', 'x', 't']] := by
  obtain ⟨r, h1, _, _, h4⟩ := trailing_junk_discards_rule sample_parsers_junk
    (at_keyword ['i', 'm', 'p', 'o', 'r', 't'])
    [tok FUNCTION, ident ['x'], tok CLOSE_PARENS, ident ['e', 'x', 't', 'r', 'a'],
      tok SEMICOLON, ident ['n', 'e', 'x', 't']] 8 none () GtkCssRuleKind.import_rule rfl
    (by decide) (by decide) (by decide)
  obtain ⟨h5, h6, h7, _⟩ := h4 rfl (by decide)
  refine ⟨r, h1, h5, h6, ?_⟩
  have h8 : some r.at_source =
      some { source := [ident ['n', 'e', 'x', 't']], blocks := [], done := true } :=
    h7.symm.trans rfl
  simp only [Option.some.injEq] at h8
  rw [h8]

/-- C12: for a list starting with an at-keyword (its text a C string, so without
the character 0), the dispatcher runs the sub-parser for import exactly when the
text matches "import" case-insensitively, the one for define-color exactly when
it matches "define-color", the one for keyframes exactly when it matches
"keyframes" (the three names exclude each other), and no sub-parser exactly when
it matches none; at most one call is made, and it receives the fresh bounded
source and the caller's parent rule and parent style sheet. -/
theorem keyword_routing {ρ S ε : Type}
    (parsers : GtkCssRuleParsers (List GtkCssToken) ρ S ε) (t : GtkCssToken)
    (rest : List GtkCssToken) (fuel : Nat) (parent_rule : Option ρ) (parent_style_sheet : S)
    (ht : t.type = AT_KEYWORD) (hnul : ∀ c ∈ t.string, c ≠ Char.ofNat 0)
    (hf : (t :: rest).length < fuel) :
    ∃ r,
      gtk_css_rule_new_from_at_rule GTK_CSS_TOKEN_SOURCE_LIST parsers fuel (t :: rest)
          parent_rule parent_style_sheet = some r ∧
        (r.calls.map GtkCssRuleCall.kind = [GtkCssRuleKind.import_rule] ↔
          ascii_case_insensitive_eq t.string ['i', 'm', 'p', 'o', 'r', 't'] = true) ∧
        (r.calls.map GtkCssRuleCall.kind = [GtkCssRuleKind.define_color_rule] ↔
          ascii_case_insensitive_eq t.string
            ['d', 'e', 'f', 'i', 'n', 'e', '-', 'c', 'o', 'l', 'o', 'r'] = true) ∧
        (r.calls.map GtkCssRuleCall.kind = [GtkCssRuleKind.keyframes_rule] ↔
          ascii_case_insensitive_eq t.string
            ['k', 'e', 'y', 'f', 'r', 'a', 'm', 'e', 's'] = true) ∧
        (r.calls = [] ↔
          (ascii_case_insensitive_eq t.string ['i', 'm', 'p', 'o', 'r', 't'] = false ∧
            ascii_case_insensitive_eq t.string
              ['d', 'e', 'f', 'i', 'n', 'e', '-', 'c', 'o', 'l', 'o', 'r'] = false ∧
            ascii_case_insensitive_eq t.string
              ['k', 'e', 'y', 'f', 'r', 'a', 'm', 'e', 's'] = false)) ∧
        r.calls.length ≤ 1 ∧
        (∀ c ∈ r.calls,
          c.at_source = gtk_css_token_source_new_at (t :: rest) ∧
            c.parent_rule = parent_rule ∧ c.parent_style_sheet = parent_style_sheet ∧
            c.result = parsers.of_kind c.kind (gtk_css_token_source_new_at (t :: rest))
              parent_rule parent_style_sheet) := by
  obtain ⟨s1, s2, s3, s4⟩ := dispatch_table_spec t.string
  cases hk : dispatch_table t.string with
  | none =>
    rw [new_from_at_rule_unknown parsers t rest fuel parent_rule parent_style_sheet ht hnul hk]
    obtain ⟨_, st, h1, _⟩ := list_drain_fresh_spec (t :: rest) fuel hf
    rw [h1]
    rw [hk] at s1 s2 s3 s4
    refine ⟨_, rfl, ?_, ?_, ?_, ?_, ?_, ?_⟩
    · rw [← s1]; simp
    · rw [← s2]; simp
    · rw [← s3]; simp
    · rw [← s4]; simp
    · simp
    · intro c hc; simp at hc
  | some kind =>
    rw [new_from_at_rule_known parsers t rest fuel parent_rule parent_style_sheet kind ht hnul
      hk]
    obtain ⟨r, h1, h2, _⟩ := list_check_end_spec fuel
      (gtk_css_rule_parse_with GTK_CSS_TOKEN_SOURCE_LIST kind (parsers.of_kind kind)
        (gtk_css_token_source_new_at (t :: rest)) parent_rule parent_style_sheet)
      (lt_of_le_of_lt (list_at_consume_tokens_length _ _) hf)
    rw [hk] at s1 s2 s3 s4
    refine ⟨r, h1, ?_, ?_, ?_, ?_, ?_, ?_⟩
    · rw [← s1, h2]; simp [gtk_css_rule_parse_with]
    · rw [← s2, h2]; simp [gtk_css_rule_parse_with]
    · rw [← s3, h2]; simp [gtk_css_rule_parse_with]
    · rw [← s4, h2]; simp [gtk_css_rule_parse_with]
    · rw [h2]; simp [gtk_css_rule_parse_with]
    · intro c hc
      rw [h2] at hc
      simp only [gtk_css_rule_parse_with, List.mem_singleton] at hc
      subst hc
      exact ⟨rfl, rfl, rfl, rfl⟩

/-- The instance of C12 at `@IMPORT x ;`: the keyword in capitals is routed to
the sub-parser for import. -/
theorem keyword_routing_witness :
    ∃ r,
      gtk_css_rule_new_from_at_rule GTK_CSS_TOKEN_SOURCE_LIST sample_parsers 4
          sample_upper_rule none () = some r ∧
        r.calls.map GtkCssRuleCall.kind = [GtkCssRuleKind.import_rule] := by
  obtain ⟨r, h1, h2, _⟩ := keyword_routing sample_parsers
    (at_keyword ['I', 'M', 'P', 'O', 'R', 'T']) [ident ['x'], tok SEMICOLON] 4 none () rfl
    (by decide) (by decide)
  exact ⟨r, h1, h2.mpr (by decide)⟩

/-- C13: for a list starting with an at-keyword whose text matches none of the
three names (and with enough fuel), the dispatcher reports exactly one
diagnostic, the unknown-rule report carrying that keyword text, runs no
sub-parser, returns no rule, and drains the bounded source from its start: the
caller's list is left at the tokens that follow the rule's terminator (the first
top-level semicolon, or the close-brace of the first top-level block), so its
next token is the first of them; the bounded peek then reports end-of-input
and, when `x` is the first token of the list to set the latch, the caller's list
is left right after `x`. -/
theorem unknown_keyword_is_drained {ρ S ε : Type}
    (parsers : GtkCssRuleParsers (List GtkCssToken) ρ S ε) (t : GtkCssToken)
    (rest : List GtkCssToken) (fuel : Nat) (parent_rule : Option ρ) (parent_style_sheet : S)
    (ht : t.type = AT_KEYWORD) (hnul : ∀ c ∈ t.string, c ≠ Char.ofNat 0)
    (hk : ascii_case_insensitive_eq t.string ['i', 'm', 'p', 'o', 'r', 't'] = false ∧
      ascii_case_insensitive_eq t.string
        ['d', 'e', 'f', 'i', 'n', 'e', '-', 'c', 'o', 'l', 'o', 'r'] = false ∧
      ascii_case_insensitive_eq t.string ['k', 'e', 'y', 'f', 'r', 'a', 'm', 'e', 's'] = false)
    (hf : (t :: rest).length < fuel) :
    ∃ r,
      gtk_css_rule_new_from_at_rule GTK_CSS_TOKEN_SOURCE_LIST parsers fuel (t :: rest)
          parent_rule parent_style_sheet = some r ∧
        r.errors = [GtkCssDiagnostic.unknown_rule t.string] ∧
        r.rule = none ∧ r.calls = [] ∧
        gtk_css_token_source_consume_all (GTK_CSS_TOKEN_SOURCE_AT GTK_CSS_TOKEN_SOURCE_LIST)
          fuel (gtk_css_token_source_new_at (t :: rest)) = some r.at_source ∧
        (gtk_css_token_source_at_peek_token GTK_CSS_TOKEN_SOURCE_LIST r.at_source).type = EOF ∧
        (∀ p x after, t :: rest = p ++ x :: after → (∀ y ∈ p, y.type ≠ EOF) →
          (at_state_after (t :: rest) p.length).done = false →
          (at_state_after (t :: rest) (p.length + 1)).done = true →
          r.at_source.source = after ∧
            GTK_CSS_TOKEN_SOURCE_LIST.peek_token r.at_source.source =
              after.headD eof_token) ∧
        r.at_source.source = after_terminator [] (t :: rest) ∧
        GTK_CSS_TOKEN_SOURCE_LIST.peek_token r.at_source.source =
          (after_terminator [] (t :: rest)).headD eof_token := by
  have hnone : dispatch_table t.string = none := (dispatch_table_spec t.string).2.2.2.mpr hk
  rw [new_from_at_rule_unknown parsers t rest fuel parent_rule parent_style_sheet ht hnul
    hnone]
  obtain ⟨ys, st, h1, _, _, h4, h5⟩ := list_drain_fresh_spec (t :: rest) fuel hf
  obtain ⟨st2, k1, k2⟩ := list_drain_after_terminator (t :: rest)
    (gtk_css_token_source_new_at (t :: rest)) fuel rfl rfl hf
  rw [h1] at k1
  simp only [Option.some.injEq] at k1
  subst k1
  have k3 : st.source = after_terminator [] (t :: rest) := k2
  rw [h1]
  refine ⟨_, rfl, rfl, rfl, rfl, rfl, h4, ?_, k3, by rw [← k3]; rfl⟩
  intro p x after hl hp hd hlatch
  have := (h5 p x after hl hp hd hlatch).2.1
  exact ⟨this, by rw [this]; rfl⟩

/-- The instances of C13 at `@frobnicate foo ; bar baz`, where the caller's list
is left at `bar baz` (next token `bar`), and at `@frob { } x`, where the rule
ends with its block and the caller's list is left at `x`. -/
theorem unknown_keyword_is_drained_witness :
    (∃ r,
      gtk_css_rule_new_from_at_rule GTK_CSS_TOKEN_SOURCE_LIST sample_parsers 6
          sample_unknown_rule none () = some r ∧
        r.errors =
          [GtkCssDiagnostic.unknown_rule ['f', 'r', 'o', 'b', 'n', 'i', 'c', 'a', 't', 'e']] ∧
        r.rule = none ∧
        r.at_source.source = [ident ['b', 'a', 'r'], ident ['b', 'a', 'z']] ∧
        GTK_CSS_TOKEN_SOURCE_LIST.peek_token r.at_source.source = ident ['b', 'a', 'r']) ∧
      (∃ r,
        gtk_css_rule_new_from_at_rule GTK_CSS_TOKEN_SOURCE_LIST sample_parsers 5
            sample_unknown_block none () = some r ∧
          r.errors = [GtkCssDiagnostic.unknown_rule ['f', 'r', 'o', 'b']] ∧
          r.rule = none ∧
          r.at_source.source = [ident ['x']] ∧
          GTK_CSS_TOKEN_SOURCE_LIST.peek_token r.at_source.source = ident ['x']) ∧
      (gtk_css_rule_new_from_at_rule GTK_CSS_TOKEN_SOURCE_LIST sample_parsers 5
          sample_unknown_block none ()).map (fun r => r.at_source.source) =
        some [ident ['x']] := by
  refine ⟨?_, ?_, rfl⟩
  · obtain ⟨r, h1, h2, h3, _, _, _, _, h8, h9⟩ := unknown_keyword_is_drained sample_parsers
      (at_keyword ['f', 'r', 'o', 'b', 'n', 'i', 'c', 'a', 't', 'e'])
      [ident ['f', 'o', 'o'], tok SEMICOLON, ident ['b', 'a', 'r'], ident ['b', 'a', 'z']]
      6 none () rfl (by decide) (by decide) (by decide)
    exact ⟨r, h1, h2, h3, h8.trans (by decide), h9.trans (by decide)⟩
  · obtain ⟨r, h1, h2, h3, _, _, _, _, h8, h9⟩ := unknown_keyword_is_drained sample_parsers
      (at_keyword ['f', 'r', 'o', 'b'])
      [tok OPEN_CURLY, tok CLOSE_CURLY, ident ['x']]
      5 none () rfl (by decide) (by decide) (by decide)
    exact ⟨r, h1, h2, h3, h8.trans (by decide), h9.trans (by decide)⟩

/-- C14: when the first token fetched from the fresh bounded source is not an
at-keyword (the end-of-input token of an empty list included), the dispatcher,
with enough fuel, reports exactly the syntax error, runs no sub-parser, returns
no rule, and drains the bounded source from its start: the caller's list is left
at the tokens that follow the first top-level terminator (a semicolon met with
nothing open, or the close-brace of the first top-level block), or where the
list itself reports end-of-input when there is none; the tokens consumed and
the tokens left make up the list, the bounded peek reports end-of-input, the
caller's list is left right after the first token that sets the latch, and if
the latch was never set the list itself reports end-of-input. -/
theorem malformed_rule_start_is_drained {ρ S ε : Type}
    (parsers : GtkCssRuleParsers (List GtkCssToken) ρ S ε) (l : List GtkCssToken) (fuel : Nat)
    (parent_rule : Option ρ) (parent_style_sheet : S)
    (ht : (gtk_css_token_source_get_token (GTK_CSS_TOKEN_SOURCE_AT GTK_CSS_TOKEN_SOURCE_LIST)
      (gtk_css_token_source_new_at l)).type ≠ AT_KEYWORD)
    (hf : l.length < fuel) :
    ∃ r,
      gtk_css_rule_new_from_at_rule GTK_CSS_TOKEN_SOURCE_LIST parsers fuel l
          parent_rule parent_style_sheet = some r ∧
        r.errors = [GtkCssDiagnostic.expected_at] ∧
        r.calls = [] ∧ r.rule = none ∧
        gtk_css_token_source_consume_all (GTK_CSS_TOKEN_SOURCE_AT GTK_CSS_TOKEN_SOURCE_LIST)
          fuel (gtk_css_token_source_new_at l) = some r.at_source ∧
        (∃ ys, ys ++ r.at_source.source = l) ∧
        (gtk_css_token_source_at_peek_token GTK_CSS_TOKEN_SOURCE_LIST r.at_source).type = EOF ∧
        (∀ p x after, l = p ++ x :: after → (∀ y ∈ p, y.type ≠ EOF) →
          (at_state_after l p.length).done = false →
          (at_state_after l (p.length + 1)).done = true →
          r.at_source.source = after) ∧
        (r.at_source.done = false →
          (GTK_CSS_TOKEN_SOURCE_LIST.peek_token r.at_source.source).type = EOF) ∧
        r.at_source.source = after_terminator [] l := by
  obtain ⟨ys, st, h1, _, h3, h4, h5⟩ := list_drain_fresh_spec l fuel hf
  obtain ⟨st2, k1, k2⟩ := list_drain_after_terminator l (gtk_css_token_source_new_at l) fuel
    rfl rfl hf
  rw [h1] at k1
  simp only [Option.some.injEq] at k1
  subst k1
  have k3 : st.source = after_terminator [] l := k2
  unfold gtk_css_rule_new_from_at_rule
  simp only [ht, ne_eq, not_false_eq_true, if_true]
  rw [h1]
  refine ⟨_, rfl, rfl, rfl, rfl, rfl, ⟨ys, h3⟩, h4, ?_, ?_, k3⟩
  · intro p x after hl hp hd hlatch
    exact (h5 p x after hl hp hd hlatch).2.1
  · intro hd
    have hd2 : st.done = false := hd
    simpa [gtk_css_token_source_at_peek_token, hd2, gtk_css_token_source_peek_token] using h4

/-- The instances of C14 at ` url(x); y`, which starts with a function token and
is left at `y`, and at `{ a ; b } c`, where the semicolon inside the block is not
at top level and the caller's list is left at `c`. -/
theorem malformed_rule_start_is_drained_witness :
    (∃ r,
      gtk_css_rule_new_from_at_rule GTK_CSS_TOKEN_SOURCE_LIST sample_parsers 6
          sample_import_tokens none () = some r ∧
        r.errors = [GtkCssDiagnostic.expected_at] ∧ r.calls = [] ∧ r.rule = none ∧
        r.at_source.source = [ident ['y']]) ∧
      (∃ r,
        gtk_css_rule_new_from_at_rule GTK_CSS_TOKEN_SOURCE_LIST sample_parsers 7
            sample_block_start none () = some r ∧
          r.errors = [GtkCssDiagnostic.expected_at] ∧ r.calls = [] ∧ r.rule = none ∧
          r.at_source.source = [ident ['c']]) ∧
      (gtk_css_rule_new_from_at_rule GTK_CSS_TOKEN_SOURCE_LIST sample_parsers 7
          sample_block_start none ()).map (fun r => r.at_source.source) =
        some [ident ['c']] := by
  refine ⟨?_, ?_, rfl⟩
  · obtain ⟨r, h1, h2, h3, h4, _, _, _, _, _, h10⟩ := malformed_rule_start_is_drained
      sample_parsers sample_import_tokens 6 none () (by decide) (by decide)
    exact ⟨r, h1, h2, h3, h4, h10.trans (by decide)⟩
  · obtain ⟨r, h1, h2, h3, h4, _, _, _, _, _, h10⟩ := malformed_rule_start_is_drained
      sample_parsers sample_block_start 7 none () (by decide) (by decide)
    exact ⟨r, h1, h2, h3, h4, h10.trans (by decide)⟩

end Routing

/-! ## Well-nested rules -/

section Nesting

open GtkCssTokenType

/-- On a token the strict discipline accepts, the scanner's stack update is the
discipline's. -/
theorem at_track_matches_nesting {σ : Type} (self : GtkCssTokenSourceAt σ) (t : GtkCssToken)
    (s2 : List GtkCssTokenType) (h : nesting_step (some self.blocks) t = some s2) :
    (gtk_css_token_source_at_track self t.type).blocks = s2 := by
  cases hb : self.blocks with
  | nil =>
    rw [hb] at h
    cases ht : t.type <;>
      simp [nesting_step, closer_of, is_closer, ht] at h <;>
      simp [gtk_css_token_source_at_track, hb, g_slist_prepend, h]
  | cons b rest =>
    rw [hb] at h
    cases ht : t.type <;>
      simp [nesting_step, closer_of, is_closer, ht] at h <;>
      simp [gtk_css_token_source_at_track, hb, g_slist_prepend, g_slist_remove, h] <;>
      split <;> simp_all

theorem nesting_foldl_none (xs : List GtkCssToken) : xs.foldl nesting_step none = none := by
  induction xs with
  | nil => rfl
  | cons x xs ih => simpa [List.foldl, nesting_step] using ih

theorem open_brackets_take_succ (l : List GtkCssToken) (k : Nat) (hk : k < l.length) :
    open_brackets (l.take (k + 1)) = nesting_step (open_brackets (l.take k)) l[k] := by
  unfold open_brackets
  rw [List.take_succ, List.foldl_append, List.getElem?_eq_getElem hk]
  rfl

/-- A well-nested list has well-nested beginnings. -/
theorem open_brackets_take_isSome (l : List GtkCssToken) (k : Nat)
    (h : (open_brackets l).isSome = true) : (open_brackets (l.take k)).isSome = true := by
  have hsplit : open_brackets l = (l.drop k).foldl nesting_step (open_brackets (l.take k)) := by
    unfold open_brackets
    rw [← List.foldl_append, List.take_append_drop]
  cases hk : open_brackets (l.take k) with
  | some s => rfl
  | none =>
    rw [hsplit, hk, nesting_foldl_none] at h
    exact absurd h (by decide)

/-- The number of unclosed openers is the number of openers minus the number of
closers. -/
theorem nesting_foldl_count (xs : List GtkCssToken) :
    ∀ s0 s : List GtkCssTokenType, xs.foldl nesting_step (some s0) = some s →
      s.length + count_closers xs = s0.length + count_openers xs := by
  induction xs with
  | nil =>
    intro s0 s h
    simp only [List.foldl, Option.some.injEq] at h
    subst h
    simp [count_closers, count_openers]
  | cons x xs ih =>
    intro s0 s h
    rw [List.foldl] at h
    cases hstep : nesting_step (some s0) x with
    | none => rw [hstep, nesting_foldl_none] at h; exact absurd h (by simp)
    | some s1 =>
      rw [hstep] at h
      have := ih s1 s h
      have hx : s1.length + (if is_closer x.type then 1 else 0) =
          s0.length + (if (closer_of x.type).isSome then 1 else 0) := by
        cases hty : x.type <;> cases s0 <;>
          simp [nesting_step, closer_of, is_closer, hty] at hstep <;>
          (first | subst hstep | (have h2 := hstep.2; subst h2)) <;>
          simp [closer_of, is_closer]
      simp only [count_closers, count_openers, List.filter_cons] at this ⊢
      split_ifs at hx ⊢ <;> simp at hx ⊢ <;> omega

theorem open_brackets_count (xs : List GtkCssToken) (s : List GtkCssTokenType)
    (h : open_brackets xs = some s) :
    s.length + count_closers xs = count_openers xs := by
  have := nesting_foldl_count xs [] s h
  simpa using this

/-- One consume of a fresh bounded source over a list, while it is not done and
the list has a token left: that token is tracked and the list moves on. -/
theorem at_state_after_step (l : List GtkCssToken) (k : Nat) (hk : k < l.length)
    (hd : (at_state_after l k).done = false) :
    at_state_after l (k + 1) =
      { gtk_css_token_source_at_track (at_state_after l k) l[k].type with
        source := l.drop (k + 1) } := by
  have hs : (at_state_after l k).source = l[k] :: l.drop (k + 1) := by
    rw [← List.drop_eq_getElem_cons hk]
    exact list_at_consume_tokens_source _ k hd
  rw [at_state_after_succ, list_at_consume_cons _ _ _ hd hs]

/-- While no earlier state was done, the scanner's stack after `k` consumes is
the stack of unclosed openers of the first `k` tokens. -/
theorem list_scan_matches_nesting (l : List GtkCssToken) (k : Nat) :
    k ≤ l.length → (∀ m, m < k → (at_state_after l m).done = false) →
      ∀ s, open_brackets (l.take k) = some s → (at_state_after l k).blocks = s := by
  induction k with
  | zero =>
    intro _ _ s hs
    simp only [List.take_zero, open_brackets, List.foldl, Option.some.injEq] at hs
    rw [← hs]; rfl
  | succ k ih =>
    intro hk hnd s hs
    have hkl : k < l.length := by omega
    rw [open_brackets_take_succ l k hkl] at hs
    cases h0 : open_brackets (l.take k) with
    | none => rw [h0] at hs; simp [nesting_step] at hs
    | some s0 =>
      rw [h0] at hs
      have hb0 := ih (by omega) (fun m hm => hnd m (by omega)) s0 h0
      rw [at_state_after_step l k hkl (hnd k (by omega))]
      exact at_track_matches_nesting _ _ _ (by rw [hb0]; exact hs)

/-- A tracked token that leaves a non-empty stack non-empty keeps its bottom. -/
theorem at_track_keeps_bottom {σ : Type} (self : GtkCssTokenSourceAt σ) (type : GtkCssTokenType)
    (h1 : self.blocks ≠ []) (h2 : (gtk_css_token_source_at_track self type).blocks ≠ []) :
    (gtk_css_token_source_at_track self type).blocks.getLast? = self.blocks.getLast? := by
  cases hb : self.blocks with
  | nil => exact absurd hb h1
  | cons b rest =>
    cases type <;>
      simp only [gtk_css_token_source_at_track, hb, g_slist_prepend, g_slist_remove,
        List.erase_cons_head, List.getLast?_cons_cons] at h2 ⊢ <;>
      (repeat' split) <;> (try simp only [hb]) <;>
      (cases rest <;> simp_all [List.getLast?_cons_cons])

/-- A well-nested beginning of a list with no semicolon and no open-brace at top
level never sets the latch: every state up to its end is not done, has no
close-brace at the bottom of the stack, and carries the stack of unclosed
openers. -/
theorem list_scan_top_level_open (l : List GtkCssToken) (n : Nat) (hn : n ≤ l.length)
    (hwn : (open_brackets (l.take n)).isSome = true)
    (hfirst : ∀ (k : Nat) (hk : k < l.length), k < n → open_brackets (l.take k) = some [] →
      l[k].type ≠ SEMICOLON ∧ l[k].type ≠ OPEN_CURLY) (k : Nat) :
    k ≤ n →
      (∀ m, m ≤ k → (at_state_after l m).done = false) ∧
        (at_state_after l k).blocks.getLast? ≠ some CLOSE_CURLY ∧
        (∀ s, open_brackets (l.take k) = some s → (at_state_after l k).blocks = s) := by
  have hsome : ∀ m, m ≤ n → ∃ s, open_brackets (l.take m) = some s := by
    intro m hm
    have := open_brackets_take_isSome (l.take n) m hwn
    rw [List.take_take, min_eq_left hm] at this
    exact Option.isSome_iff_exists.mp this
  induction k with
  | zero =>
    intro _
    refine ⟨?_, ?_, ?_⟩
    · intro m hm
      have : m = 0 := by omega
      subst this; rfl
    · simp [at_state_after, gtk_css_token_source_at_consume_tokens,
        gtk_css_token_source_new_at]
    · exact list_scan_matches_nesting l 0 (by omega) (by intro m hm; omega)
  | succ k ih =>
    intro hk
    obtain ⟨hd, hlast, hb⟩ := ih (by omega)
    have hkl : k < l.length := by omega
    have hdk := hd k (le_refl k)
    obtain ⟨s0, hs0⟩ := hsome k (by omega)
    obtain ⟨s1, hs1⟩ := hsome (k + 1) hk
    have hb0 := hb s0 hs0
    have hstep : nesting_step (some s0) l[k] = some s1 := by
      rw [← hs0, ← open_brackets_take_succ l k hkl]; exact hs1
    have hnext := at_state_after_step l k hkl hdk
    have hopen := at_track_stays_open (at_state_after l k) l[k].type hdk hlast (by
      intro hnil
      rw [hb0] at hnil
      subst hnil
      have h2 := hfirst k hkl (by omega) hs0
      intro hmem
      simp only [List.mem_cons, List.mem_singleton, List.not_mem_nil, or_false] at hmem
      rcases hmem with h | h | h
      · exact h2.1 h
      · exact h2.2 h
      · simp [nesting_step, closer_of, is_closer, h] at hstep)
    have hd1 : (at_state_after l (k + 1)).done = false := by rw [hnext]; exact hopen.1
    refine ⟨?_, ?_, ?_⟩
    · intro m hm
      rcases Nat.lt_or_ge m (k + 1) with h | h
      · exact hd m (by omega)
      · have : m = k + 1 := by omega
        subst this; exact hd1
    · rw [hnext]; exact hopen.2
    · exact list_scan_matches_nesting l (k + 1) (by omega) (fun m hm => hd m (by omega))

/-- C17, as the code has it: for a list `p ++ t :: rest` where `p` is well
nested and every opener of `p` is closed again within `p`, where `p` has no
semicolon and no brace at top level (and no end-of-input token), and `t` is a
semicolon, a fresh bounded source read to its end (with enough fuel) yields
exactly the tokens of `p` followed by `t`; it then reports end-of-input, being
done, and the wrapped list is left at `rest`.  No state up to the consume of `t`
was done. -/
theorem semicolon_terminated_rule (p : List GtkCssToken) (t : GtkCssToken)
    (rest : List GtkCssToken) (fuel : Nat) (hbal : open_brackets p = some [])
    (htop : ∀ (k : Nat) (hk : k < p.length), open_brackets (p.take k) = some [] →
      p[k].type ∉ [SEMICOLON, OPEN_CURLY, CLOSE_CURLY])
    (hp : ∀ x ∈ p, x.type ≠ EOF) (ht : t.type = SEMICOLON)
    (hf : (p ++ t :: rest).length < fuel) :
    ∃ st,
      gtk_css_token_source_read_all (GTK_CSS_TOKEN_SOURCE_AT GTK_CSS_TOKEN_SOURCE_LIST) fuel
          (gtk_css_token_source_new_at (p ++ t :: rest)) = some (p ++ [t], st) ∧
        st.source = rest ∧ st.done = true ∧
        gtk_css_token_source_at_peek_token GTK_CSS_TOKEN_SOURCE_LIST st = eof_token ∧
        (∀ k, k ≤ p.length → (at_state_after (p ++ t :: rest) k).done = false) := by
  have hlen : p.length < (p ++ t :: rest).length := by simp
  have htake : (p ++ t :: rest).take p.length = p := List.take_left p (t :: rest)
  obtain ⟨hd, _, hb⟩ := list_scan_top_level_open (p ++ t :: rest) p.length (by omega)
    (by rw [htake, hbal]; rfl)
    (by
      intro k hk hlt hopen
      rw [List.take_append_of_le_length (by omega)] at hopen
      have := htop k hlt hopen
      rw [List.getElem_append_left hlt]
      simp only [List.mem_cons, List.mem_singleton, List.not_mem_nil, or_false, not_or] at this
      exact ⟨this.1, this.2.1⟩)
    p.length (le_refl _)
  have hdp := hd p.length (le_refl _)
  have hbp : (at_state_after (p ++ t :: rest) p.length).blocks = [] :=
    hb [] (by rw [htake]; exact hbal)
  have hget : (p ++ t :: rest)[p.length] = t := by
    rw [List.getElem_append_right (le_refl _)]
    simp
  have hlatch : (at_state_after (p ++ t :: rest) (p.length + 1)).done = true := by
    rw [at_state_after_step _ _ hlen hdp, hget, ht]
    simp [gtk_css_token_source_at_track, hbp]
  obtain ⟨ys, st, _, h2, _, _, h5⟩ := list_drain_fresh_spec (p ++ t :: rest) fuel hf
  obtain ⟨g1, g2, g3⟩ := h5 p t rest rfl hp hdp hlatch
  refine ⟨st, by rw [h2, g1], g2, g3, ?_, hd⟩
  simp [gtk_css_token_source_at_peek_token, g3]

/-- The instance of C17 at ` url(x); y`: the four tokens through the semicolon
are yielded, the list is left at `y`, and the stack depth never exceeds 1. -/
theorem semicolon_terminated_rule_witness :
    (∃ st,
      gtk_css_token_source_read_all (GTK_CSS_TOKEN_SOURCE_AT GTK_CSS_TOKEN_SOURCE_LIST) 6
          (gtk_css_token_source_new_at sample_import_tokens) =
            some ([tok FUNCTION, ident ['x'], tok CLOSE_PARENS, tok SEMICOLON], st) ∧
        st.source = [ident ['y']] ∧ st.done = true ∧
        gtk_css_token_source_at_peek_token GTK_CSS_TOKEN_SOURCE_LIST st = eof_token) ∧
      (∀ k, k < 6 → (at_state_after sample_import_tokens k).blocks.length ≤ 1) := by
  obtain ⟨st, h1, h2, h3, h4, _⟩ := semicolon_terminated_rule
    [tok FUNCTION, ident ['x'], tok CLOSE_PARENS] (tok SEMICOLON) [ident ['y']] 6 (by decide)
    (by decide) (by decide) rfl (by decide)
  exact ⟨⟨st, h1, h2, h3, h4⟩, by decide⟩

/-- C17 fails as stated: `p = (` is well nested (no closer mismatches the most
recent unclosed opener) and has no semicolon and no brace at top level, yet over
`( ; y z` the semicolon is read inside the open parenthesis and does not end the
view: the read yields all four tokens, not `( ;`, the source is never done, and
nothing of `y z` is left in the wrapped list. -/
theorem semicolon_terminated_rule_counterexample :
    (open_brackets sample_unclosed).isSome = true ∧
      (∀ (k : Nat) (hk : k < sample_unclosed.length),
        open_brackets (sample_unclosed.take k) = some [] →
          sample_unclosed[k].type ∉ [SEMICOLON, OPEN_CURLY, CLOSE_CURLY]) ∧
      gtk_css_token_source_read_all (GTK_CSS_TOKEN_SOURCE_AT GTK_CSS_TOKEN_SOURCE_LIST) 5
          (gtk_css_token_source_new_at
            (sample_unclosed ++ tok SEMICOLON :: [ident ['y'], ident ['z']])) =
        some ([tok OPEN_PARENS, tok SEMICOLON, ident ['y'], ident ['z']],
          { source := [], blocks := [CLOSE_PARENS], done := false }) ∧
      [tok OPEN_PARENS, tok SEMICOLON, ident ['y'], ident ['z']] ≠
        sample_unclosed ++ [tok SEMICOLON] ∧
      ([] : List GtkCssToken) ≠ [ident ['y'], ident ['z']] := by
  refine ⟨by decide, by decide, rfl, by decide, by decide⟩

/-- C16: let `l` be well nested (every closer matches the most recent unclosed
opener), let the token at `i` be an open-brace at top level with no semicolon or
open-brace at top level before it, and let `j` be the first position after `i`
whose token brings the nesting back to top level (the matching closer).  Then,
for a fresh bounded source over `l`, the stack depth after each of the first
`j + 1` consumes is the number of openers minus the number of closers consumed,
`done` is still clear after `j` consumes, the token at `j` is a close-brace, and
consuming it sets `done`. -/
theorem block_terminated_rule (l : List GtkCssToken) (i j : Nat)
    (hwn : (open_brackets l).isSome = true) (hij : i < j) (hj : j < l.length)
    (htop : open_brackets (l.take i) = some [])
    (hopen : l[i].type = OPEN_CURLY)
    (hfirst : ∀ (k : Nat) (hk : k < l.length), k < i → open_brackets (l.take k) = some [] →
      l[k].type ≠ SEMICOLON ∧ l[k].type ≠ OPEN_CURLY)
    (hinner : ∀ k, k ≤ j → i < k → open_brackets (l.take k) ≠ some [])
    (hclose : open_brackets (l.take (j + 1)) = some []) :
    (∀ k, k ≤ j + 1 →
        (at_state_after l k).blocks.length + count_closers (l.take k) =
          count_openers (l.take k)) ∧
      (∀ k, k ≤ j → (at_state_after l k).done = false) ∧
      (at_state_after l (j + 1)).done = true ∧
      l[j].type = CLOSE_CURLY := by
  have hil : i < l.length := by omega
  have hsome : ∀ m, ∃ s, open_brackets (l.take m) = some s := fun m =>
    Option.isSome_iff_exists.mp (open_brackets_take_isSome l m hwn)
  -- up to the open-brace
  obtain ⟨hd1, _, hb1⟩ := list_scan_top_level_open l i (by omega)
    (open_brackets_take_isSome l i hwn) hfirst i (le_refl _)
  have hbi : (at_state_after l i).blocks = [] := hb1 [] htop
  have hdi := hd1 i (le_refl _)
  have hnexti := at_state_after_step l i hil hdi
  -- inside the block
  have ph2 : ∀ d, i + 1 + d ≤ j →
      (∀ m, m ≤ i + 1 + d → (at_state_after l m).done = false) ∧
        (at_state_after l (i + 1 + d)).blocks.getLast? = some CLOSE_CURLY := by
    intro d
    induction d with
    | zero =>
      intro _
      have hst : (at_state_after l (i + 1)).done = false ∧
          (at_state_after l (i + 1)).blocks = [CLOSE_CURLY] := by
        rw [hnexti, hopen]
        simp [gtk_css_token_source_at_track, g_slist_prepend, hbi, hdi]
      refine ⟨?_, ?_⟩
      · intro m hm
        rcases Nat.lt_or_ge m (i + 1) with h | h
        · exact hd1 m (by omega)
        · have : m = i + 1 := by omega
          subst this; exact hst.1
      · show (at_state_after l (i + 1)).blocks.getLast? = _
        rw [hst.2]; rfl
    | succ d ih =>
      intro hk
      obtain ⟨hd, hlast⟩ := ih (by omega)
      have hkl : i + 1 + d < l.length := by omega
      have hdk := hd (i + 1 + d) (le_refl _)
      obtain ⟨s0, hs0⟩ := hsome (i + 1 + d)
      obtain ⟨s1, hs1⟩ := hsome (i + 1 + d + 1)
      have hb0 := list_scan_matches_nesting l (i + 1 + d) (by omega)
        (fun m hm => hd m (by omega)) s0 hs0
      have hstep : nesting_step (some s0) l[i + 1 + d] = some s1 := by
        rw [← hs0, ← open_brackets_take_succ l (i + 1 + d) hkl]; exact hs1
      have hnext := at_state_after_step l (i + 1 + d) hkl hdk
      have hs0ne : s0 ≠ [] := by
        intro h; exact hinner (i + 1 + d) (by omega) (by omega) (h ▸ hs0)
      have hs1ne : s1 ≠ [] := by
        intro h; exact hinner (i + 1 + d + 1) (by omega) (by omega) (h ▸ hs1)
      have hb1k : (gtk_css_token_source_at_track (at_state_after l (i + 1 + d))
          l[i + 1 + d].type).blocks = s1 :=
        at_track_matches_nesting _ _ _ (by rw [hb0]; exact hstep)
      have hdnext : (at_state_after l (i + 1 + d + 1)).done = false := by
        cases hdone : (at_state_after l (i + 1 + d + 1)).done with
        | false => rfl
        | true =>
          exfalso
          rw [hnext] at hdone
          rcases at_track_latch_cause _ _ hdk hdone with ⟨_, h2⟩ | ⟨h1, h2⟩
          · rw [hb0] at h2; exact hs0ne h2
          · rw [hb0] at h2
            rw [h2] at hstep
            simp [nesting_step, closer_of, is_closer, h1] at hstep
            exact hs1ne hstep
      refine ⟨?_, ?_⟩
      · intro m hm
        rcases Nat.lt_or_ge m (i + 1 + d + 1) with h | h
        · exact hd m (by omega)
        · have : m = i + 1 + d + 1 := by omega
          subst this; exact hdnext
      · show (at_state_after l (i + 1 + d + 1)).blocks.getLast? = _
        rw [hnext]
        show (gtk_css_token_source_at_track (at_state_after l (i + 1 + d))
          l[i + 1 + d].type).blocks.getLast? = _
        rw [at_track_keeps_bottom _ _ (by rw [hb0]; exact hs0ne) (by rw [hb1k]; exact hs1ne)]
        exact hlast
  obtain ⟨d, hd_eq⟩ : ∃ d, j = i + 1 + d := ⟨j - i - 1, by omega⟩
  obtain ⟨hdj, hlastj⟩ := ph2 d (by omega)
  rw [← hd_eq] at hdj hlastj
  have hdjj := hdj j (le_refl _)
  obtain ⟨s0, hs0⟩ := hsome j
  have hb0 := list_scan_matches_nesting l j (by omega) (fun m hm => hdj m (by omega)) s0 hs0
  have hstep : nesting_step (some s0) l[j] = some [] := by
    rw [← hs0, ← open_brackets_take_succ l j hj]; exact hclose
  have hnext := at_state_after_step l j hj hdjj
  rw [hb0] at hlastj
  have hkey : l[j].type = CLOSE_CURLY ∧ s0 = [CLOSE_CURLY] := by
    cases hty : l[j].type <;> cases s0 <;>
      simp [nesting_step, closer_of, is_closer, hty] at hstep hlastj ⊢ <;>
      simp_all
  refine ⟨?_, fun k hk => hdj k hk, ?_, hkey.1⟩
  · intro k hk
    obtain ⟨s, hs⟩ := hsome k
    rw [list_scan_matches_nesting l k (by omega) (fun m hm => hdj m (by omega)) s hs]
    exact open_brackets_count _ s hs
  · rw [hnext, hkey.1]
    simp [gtk_css_token_source_at_track, hb0, hkey.2, g_slist_remove]

/-- The instance of C16 at `name { 0% { } 100% { } }` (open-brace at position 1,
matching close-brace at position 8): the stack depths at the start and after
each of the nine consumes are 0, 0, 1, 1, 2, 1, 1, 2, 1, 0, that is 0, 1, 2, 1,
2, 1, 0 once repeats are dropped; `done` is clear after the first eight
consumes and set by the ninth, the final close-brace. -/
theorem block_terminated_rule_witness :
    (List.range 10).map (fun k => (at_state_after sample_keyframes_body k).blocks.length) =
        [0, 0, 1, 1, 2, 1, 1, 2, 1, 0] ∧
      List.destutter (fun a b => a ≠ b)
          ((List.range 10).map
            (fun k => (at_state_after sample_keyframes_body k).blocks.length)) =
        [0, 1, 2, 1, 2, 1, 0] ∧
      (∀ k, k ≤ 8 → (at_state_after sample_keyframes_body k).done = false) ∧
      (at_state_after sample_keyframes_body 9).done = true :=
  ⟨by decide, by decide,
    (block_terminated_rule sample_keyframes_body 1 8 (by decide) (by decide) (by decide)
      (by decide) (by decide) (by decide) (by decide) (by decide)).2.1,
    (block_terminated_rule sample_keyframes_body 1 8 (by decide) (by decide) (by decide)
      (by decide) (by decide) (by decide) (by decide) (by decide)).2.2.1⟩

end Nesting

/-! ## Nested wrappers -/

section Wrappers

open GtkCssTokenType

/-- The stack and latch after a tracked token depend only on the stack and latch
before it, not on the wrapped source. -/
theorem at_track_congr {σ τ : Type} (a : GtkCssTokenSourceAt σ) (b : GtkCssTokenSourceAt τ)
    (type : GtkCssTokenType) (hb : a.blocks = b.blocks) (hd : a.done = b.done) :
    (gtk_css_token_source_at_track a type).blocks =
        (gtk_css_token_source_at_track b type).blocks ∧
      (gtk_css_token_source_at_track a type).done =
        (gtk_css_token_source_at_track b type).done := by
  cases hbl : b.blocks with
  | nil =>
    rw [hbl] at hb
    cases type <;> simp [gtk_css_token_source_at_track, hb, hbl, hd]
  | cons x rest =>
    rw [hbl] at hb
    cases type <;>
      simp only [gtk_css_token_source_at_track, hb, hbl, hd, and_self] <;>
      (repeat' split) <;> simp_all

/-- The state of an inner bounded source wrapped around an outer one, after `n`
consumes during which the outer source has not latched: the inner stack, latch
and list position are those of a fresh bounded source consuming the raw list,
and the outer source is in a state reached by consuming directly from it. -/
theorem wrapper_invariant (outer : GtkCssTokenSourceAt (List GtkCssToken)) (n : Nat) :
    (∀ m, m < n →
        (gtk_css_token_source_at_consume_tokens GTK_CSS_TOKEN_SOURCE_LIST m outer).done
          = false) →
      (gtk_css_token_source_at_consume_tokens
          (GTK_CSS_TOKEN_SOURCE_AT GTK_CSS_TOKEN_SOURCE_LIST) n
          (gtk_css_token_source_new_at outer)).blocks =
        (gtk_css_token_source_at_consume_tokens GTK_CSS_TOKEN_SOURCE_LIST n
          (gtk_css_token_source_new_at outer.source)).blocks ∧
      (gtk_css_token_source_at_consume_tokens
          (GTK_CSS_TOKEN_SOURCE_AT GTK_CSS_TOKEN_SOURCE_LIST) n
          (gtk_css_token_source_new_at outer)).done =
        (gtk_css_token_source_at_consume_tokens GTK_CSS_TOKEN_SOURCE_LIST n
          (gtk_css_token_source_new_at outer.source)).done ∧
      (gtk_css_token_source_at_consume_tokens
          (GTK_CSS_TOKEN_SOURCE_AT GTK_CSS_TOKEN_SOURCE_LIST) n
          (gtk_css_token_source_new_at outer)).source.source =
        (gtk_css_token_source_at_consume_tokens GTK_CSS_TOKEN_SOURCE_LIST n
          (gtk_css_token_source_new_at outer.source)).source ∧
      ∃ k, k ≤ n ∧
        (gtk_css_token_source_at_consume_tokens
            (GTK_CSS_TOKEN_SOURCE_AT GTK_CSS_TOKEN_SOURCE_LIST) n
            (gtk_css_token_source_new_at outer)).source =
          gtk_css_token_source_at_consume_tokens GTK_CSS_TOKEN_SOURCE_LIST k outer ∧
        ((gtk_css_token_source_at_consume_tokens
            (GTK_CSS_TOKEN_SOURCE_AT GTK_CSS_TOKEN_SOURCE_LIST) n
            (gtk_css_token_source_new_at outer)).done = false → k = n) := by
  induction n with
  | zero =>
    intro _
    exact ⟨rfl, rfl, rfl, 0, le_refl _, rfl, fun _ => rfl⟩
  | succ n ih =>
    intro hO
    obtain ⟨hb, hd, hs, k, hk, hsrc, hkn⟩ := ih (fun m hm => hO m (by omega))
    rw [at_consume_tokens_succ, at_consume_tokens_succ]
    generalize hI : gtk_css_token_source_at_consume_tokens
      (GTK_CSS_TOKEN_SOURCE_AT GTK_CSS_TOKEN_SOURCE_LIST) n
      (gtk_css_token_source_new_at outer) = inner at hb hd hs hsrc hkn ⊢
    generalize hF : gtk_css_token_source_at_consume_tokens GTK_CSS_TOKEN_SOURCE_LIST n
      (gtk_css_token_source_new_at outer.source) = fresh at hb hd hs ⊢
    cases hdone : inner.done with
    | true =>
      have hfd : fresh.done = true := by rw [← hd]; exact hdone
      rw [at_consume_token_of_done _ inner hdone, at_consume_token_of_done _ fresh hfd]
      exact ⟨hb, hd, hs, k, by omega, hsrc, fun h => by rw [hdone] at h; cases h⟩
    | false =>
      have hfd : fresh.done = false := by rw [← hd]; exact hdone
      have hkeq := hkn hdone
      subst hkeq
      have hOn := hO k (by omega)
      have hpeek : (GTK_CSS_TOKEN_SOURCE_AT GTK_CSS_TOKEN_SOURCE_LIST).peek_token inner.source =
          GTK_CSS_TOKEN_SOURCE_LIST.peek_token fresh.source := by
        show gtk_css_token_source_at_peek_token GTK_CSS_TOKEN_SOURCE_LIST inner.source = _
        rw [hsrc] at hs ⊢
        simp [gtk_css_token_source_at_peek_token, hOn, gtk_css_token_source_peek_token, hs]
      rw [at_consume_token_of_not_done _ inner hdone, at_consume_token_of_not_done _ fresh hfd,
        hpeek]
      have hc := at_track_congr inner fresh
        (GTK_CSS_TOKEN_SOURCE_LIST.peek_token fresh.source).type hb hd
      refine ⟨hc.1, hc.2, ?_, k + 1, le_refl _, ?_, fun _ => rfl⟩
      · show (gtk_css_token_source_at_consume_token GTK_CSS_TOKEN_SOURCE_LIST
          inner.source).source = GTK_CSS_TOKEN_SOURCE_LIST.consume_token fresh.source
        rw [hsrc] at hs ⊢
        rw [at_consume_token_source _ _ hOn, hs]
      · show gtk_css_token_source_at_consume_token GTK_CSS_TOKEN_SOURCE_LIST inner.source = _
        rw [hsrc, at_consume_tokens_succ]

/-- C18: let an inner bounded source be freshly wrapped around an outer bounded
source over a token list, and consume `n` tokens through the inner one while the
outer one has not latched.  Then the inner stack and latch (and list position)
are those of a fresh bounded source consuming the same tokens directly from the
raw list, whatever the outer stack is; the outer source is in the state reached
by consuming `k ≤ n` tokens directly from it, with `k = n` while the inner
source is not done, and also at the consume that sets the inner latch. -/
theorem wrapper_independence (outer : GtkCssTokenSourceAt (List GtkCssToken)) (n : Nat)
    (hO : ∀ m, m < n →
      (gtk_css_token_source_at_consume_tokens GTK_CSS_TOKEN_SOURCE_LIST m outer).done = false) :
    (gtk_css_token_source_at_consume_tokens
          (GTK_CSS_TOKEN_SOURCE_AT GTK_CSS_TOKEN_SOURCE_LIST) n
          (gtk_css_token_source_new_at outer)).blocks =
        (gtk_css_token_source_at_consume_tokens GTK_CSS_TOKEN_SOURCE_LIST n
          (gtk_css_token_source_new_at outer.source)).blocks ∧
      (gtk_css_token_source_at_consume_tokens
          (GTK_CSS_TOKEN_SOURCE_AT GTK_CSS_TOKEN_SOURCE_LIST) n
          (gtk_css_token_source_new_at outer)).done =
        (gtk_css_token_source_at_consume_tokens GTK_CSS_TOKEN_SOURCE_LIST n
          (gtk_css_token_source_new_at outer.source)).done ∧
      (gtk_css_token_source_at_consume_tokens
          (GTK_CSS_TOKEN_SOURCE_AT GTK_CSS_TOKEN_SOURCE_LIST) n
          (gtk_css_token_source_new_at outer)).source.source =
        (gtk_css_token_source_at_consume_tokens GTK_CSS_TOKEN_SOURCE_LIST n
          (gtk_css_token_source_new_at outer.source)).source ∧
      (∃ k, k ≤ n ∧
        (gtk_css_token_source_at_consume_tokens
            (GTK_CSS_TOKEN_SOURCE_AT GTK_CSS_TOKEN_SOURCE_LIST) n
            (gtk_css_token_source_new_at outer)).source =
          gtk_css_token_source_at_consume_tokens GTK_CSS_TOKEN_SOURCE_LIST k outer ∧
        ((gtk_css_token_source_at_consume_tokens
            (GTK_CSS_TOKEN_SOURCE_AT GTK_CSS_TOKEN_SOURCE_LIST) n
            (gtk_css_token_source_new_at outer)).done = false → k = n)) ∧
      ((∀ m, m < n →
          (gtk_css_token_source_at_consume_tokens
            (GTK_CSS_TOKEN_SOURCE_AT GTK_CSS_TOKEN_SOURCE_LIST) m
            (gtk_css_token_source_new_at outer)).done = false) →
        (gtk_css_token_source_at_consume_tokens
            (GTK_CSS_TOKEN_SOURCE_AT GTK_CSS_TOKEN_SOURCE_LIST) n
            (gtk_css_token_source_new_at outer)).source =
          gtk_css_token_source_at_consume_tokens GTK_CSS_TOKEN_SOURCE_LIST n outer) := by
  obtain ⟨h1, h2, h3, h4⟩ := wrapper_invariant outer n hO
  refine ⟨h1, h2, h3, h4, ?_⟩
  intro hI
  cases n with
  | zero => rfl
  | succ n =>
    obtain ⟨_, _, _, k, _, hsrc, hkn⟩ := wrapper_invariant outer n (fun m hm => hO m (by omega))
    have hdn := hI n (by omega)
    have hk := hkn hdn
    subst hk
    rw [at_consume_tokens_succ, at_consume_token_source _ _ hdn, hsrc, at_consume_tokens_succ]
    rfl

/-- The instance of C18 at an outer source inside a `{` block reading
`url( x ) ; } y`: after four consumes through a fresh inner wrapper the inner
source is done with an empty stack (latched by the semicolon), while the outer
source still holds its close-brace, is not done, and stands at `} y`. -/
theorem wrapper_independence_witness :
    (gtk_css_token_source_at_consume_tokens
          (GTK_CSS_TOKEN_SOURCE_AT GTK_CSS_TOKEN_SOURCE_LIST) 4
          (gtk_css_token_source_new_at sample_outer)).blocks =
        (gtk_css_token_source_at_consume_tokens GTK_CSS_TOKEN_SOURCE_LIST 4
          (gtk_css_token_source_new_at sample_outer.source)).blocks ∧
      (gtk_css_token_source_at_consume_tokens GTK_CSS_TOKEN_SOURCE_LIST 4
          (gtk_css_token_source_new_at sample_outer.source)).blocks = [] ∧
      (gtk_css_token_source_at_consume_tokens
          (GTK_CSS_TOKEN_SOURCE_AT GTK_CSS_TOKEN_SOURCE_LIST) 4
          (gtk_css_token_source_new_at sample_outer)).done = true ∧
      (gtk_css_token_source_at_consume_tokens
          (GTK_CSS_TOKEN_SOURCE_AT GTK_CSS_TOKEN_SOURCE_LIST) 4
          (gtk_css_token_source_new_at sample_outer)).source =
        { source := [tok CLOSE_CURLY, ident ['y']], blocks := [CLOSE_CURLY], done := false } :=
  ⟨(wrapper_independence sample_outer 4 (by decide)).1, by decide,
    ((wrapper_independence sample_outer 4 (by decide)).2.1).trans (by decide),
    ((wrapper_independence sample_outer 4 (by decide)).2.2.2.2 (by decide)).trans (by rfl)⟩

end Wrappers

end GtkCssRule
